import Mathlib

/-!
Verification development for the J1939 transport-protocol controller
(j1939.cpp / j1939.h, namespace J1939, class Controller).

Shallow embedding conventions:
* machine integers (uint8_t, uint16_t, uint32_t) are Nat with explicit
  reductions modulo 256 / 65536 / 4294967296 exactly where the C types
  truncate; contiguous bit masks and shifts are written with division,
  remainder and multiplication by the corresponding powers of two, and a
  genuine bitwise or (one whose operands may overlap) is kept as Nat lor;
* the std::map containers multi_frame_messages and active_bam_sessions are
  association lists ordered by key (std::map iterates in key order);
* the FreeRTOS mutex around the bus state is modelled as always acquired:
  the mutex-timeout fallback paths of the C code are concurrency behaviour
  outside a sequential embedding;
* esp_log_timestamp() is modelled by an explicit parameter now; successive
  calls inside one handler are modelled as returning the same value;
* process_complete_message and the single-frame printf of
  decode_j1939_message are modelled by appending a record to an output
  list (the outbound sink);
* the transmit path (send_multi_frame_message, send_single_frame_message)
  is modelled by the list of frames put on the wire in order, under the
  assumptions that the bus-availability gate passes and every
  MCP2515 sendMessage call succeeds (the retry loops merely repeat the
  same frame until success, and claims about the transmit path condition
  on success).
-/

/-- Wrap-around subtraction of two uint32 values (C expression a - b on
uint32_t operands), as used by the stale-session tests. -/
def sub32 (a b : Nat) : Nat :=
  (a % 4294967296 + (4294967296 - b % 4294967296)) % 4294967296

/-- PGN_TP_CM from j1939.h. -/
def PGN_TP_CM : Nat := 0xEC00

/-- PGN_TP_DT from j1939.h. -/
def PGN_TP_DT : Nat := 0xEB00

/-- PGN_REQUEST from j1939.h. -/
def PGN_REQUEST : Nat := 0xEA00

/-- SESSION_TIMEOUT_MS from j1939.h. -/
def SESSION_TIMEOUT_MS : Nat := 1000

/-- Lookup in an association list, first match (std::map::find). -/
def alFind? {α : Type} (m : List (Nat × α)) (k : Nat) : Option α :=
  match m with
  | [] => none
  | (k1, v) :: rest => if k1 = k then some v else alFind? rest k

/-- Ordered insert-or-replace in an association list (std::map::operator[]
followed by assignment of every field). -/
def alInsert {α : Type} (m : List (Nat × α)) (k : Nat) (v : α) : List (Nat × α) :=
  match m with
  | [] => [(k, v)]
  | (k1, v1) :: rest =>
    if k < k1 then (k, v) :: (k1, v1) :: rest
    else if k = k1 then (k, v) :: rest
    else (k1, v1) :: alInsert rest k v

/-- Erase of a key from an association list (std::map::erase); removes the
first entry with that key. -/
def alErase {α : Type} (m : List (Nat × α)) (k : Nat) : List (Nat × α) :=
  match m with
  | [] => []
  | (k1, v1) :: rest => if k1 = k then rest else (k1, v1) :: alErase rest k

/-- Ordered insertion into a key set (the active_bam_sessions map, whose
values are always true, is modelled as its ordered key set). -/
def setInsert (s : List Nat) (k : Nat) : List Nat :=
  match s with
  | [] => [k]
  | x :: rest =>
    if k < x then k :: x :: rest
    else if k = x then x :: rest
    else x :: setInsert rest k

/-- Erase from a key set (std::map::erase on active_bam_sessions). -/
def setErase (s : List Nat) (k : Nat) : List Nat :=
  match s with
  | [] => []
  | x :: rest => if x = k then rest else x :: setErase rest k

/-- The size field of a sink record: a byte count for reassembled
messages, the literal string SF for single frames. -/
inductive SizeField where
  | num (n : Nat)
  | sf
deriving DecidableEq, Repr

/-- Uppercase hex digit, as produced by printf %02X. -/
def hexDigit (n : Nat) : Char :=
  if n < 10 then Char.ofNat (48 + n) else Char.ofNat (55 + n)

/-- Two uppercase hex digits of one byte (printf %02X). -/
def byteHex (b : Nat) : String :=
  String.mk [hexDigit (b / 16 % 16), hexDigit (b % 16)]

/-- Uppercase hex of a byte sequence, no separators (the data field of the
JSON records). -/
def bytesHex (l : List Nat) : String :=
  String.join (l.map byteHex)

/-- One line of sink output: the fields of the printed JSON record
(pgn, sender, size, data) of process_complete_message and of the
single-frame branch of decode_j1939_message. -/
structure OutRecord where
  pgn : Nat
  sender : Nat
  size : SizeField
  dataHex : String
deriving DecidableEq, Repr

/-- struct MultiFrameMessage from j1939.h. -/
structure MultiFrameMessage where
  data : List Nat
  total_size : Nat
  pgn : Nat
  source_addr : Nat
  session_number : Nat
  packets_received : Nat
  total_packets : Nat
  complete : Bool
  last_activity_time : Nat
deriving DecidableEq, Repr

/-- The bus-arbitration state of the Controller: the fields bus_busy,
bus_busy_timeout and the key set of active_bam_sessions. -/
structure BusState where
  bus_busy : Bool
  bus_busy_timeout : Nat
  active_bam_sessions : List Nat
deriving DecidableEq, Repr

/-- The mutable state of a Controller relevant to the claims: the session
table multi_frame_messages, the bus state, and the sink output emitted so
far. -/
structure CState where
  multi_frame_messages : List (Nat × MultiFrameMessage)
  bus : BusState
  output : List OutRecord
deriving DecidableEq, Repr

/-- Controller state right after construction: empty table, bus not busy,
timeout 0, no owners, nothing printed. -/
def initState : CState :=
  { multi_frame_messages := []
    bus := { bus_busy := false, bus_busy_timeout := 0, active_bam_sessions := [] }
    output := [] }

/-- struct can_frame: a 32-bit identifier word (bit 31 is CAN_EFF_FLAG),
a data length code and the 8-byte data array. The array is modelled as a
list; reads go through byteAt, which applies the uint8 truncation and
yields 0 for unset positions. -/
structure can_frame where
  can_id : Nat
  can_dlc : Nat
  data : List Nat
deriving DecidableEq, Repr

/-- Read of data[i] as a uint8. -/
def can_frame.byteAt (f : can_frame) (i : Nat) : Nat :=
  f.data.getD i 0 % 256

/-- The full 8-byte data array of a frame. -/
def can_frame.bytes (f : can_frame) : List Nat :=
  (List.range 8).map f.byteAt

/-- Controller::is_valid_session (j1939.cpp lines 70 to 73): the literal
session constants SESSION_A .. SESSION_F from j1939.h. -/
def is_valid_session (s : Nat) : Bool :=
  s = 2 || s = 3 || s = 6 || s = 7 || s = 10 || s = 11

/-- The stale test current_time - last_activity_time > SESSION_TIMEOUT_MS
on uint32 operands (j1939.cpp lines 150 and 173). -/
def staleB (now t : Nat) : Bool :=
  SESSION_TIMEOUT_MS < sub32 now t

/-- The repeated bus-release block (j1939.cpp lines 153 to 162, 185 to
194, 288 to 297, 334 to 343, 367 to 376): if the key is an owner, erase
it, and if the owner set became empty drop bus_busy. -/
def releaseKey (st : CState) (key : Nat) : CState :=
  if st.bus.active_bam_sessions.contains key then
    let owners := setErase st.bus.active_bam_sessions key
    { st with bus := { st.bus with
        active_bam_sessions := owners
        bus_busy := if owners.isEmpty then false else st.bus.bus_busy } }
  else st

/-- Controller::is_session_valid (j1939.cpp lines 137 to 166). Returns
the boolean result together with the possibly changed state (a stale
entry for the key is reaped and its bus ownership released). -/
def is_session_valid (st : CState) (now session_number src_addr : Nat) : Bool × CState :=
  if !is_valid_session session_number then (false, st)
  else
    let session_id := session_number * 256 + src_addr % 256
    match alFind? st.multi_frame_messages session_id with
    | none => (true, st)
    | some mfm =>
      if staleB now mfm.last_activity_time then
        (true, releaseKey
          { st with multi_frame_messages := alErase st.multi_frame_messages session_id }
          session_id)
      else (false, st)

/-- The keys collected by the first loop of cleanup_stale_sessions
(j1939.cpp lines 172 to 180). -/
def staleKeys (m : List (Nat × MultiFrameMessage)) (now : Nat) : List Nat :=
  (m.filter (fun it => staleB now it.2.last_activity_time)).map (fun it => it.1)

/-- One iteration of the second loop of cleanup_stale_sessions
(j1939.cpp lines 182 to 195): erase the table entry, then release the bus
ownership of that key. -/
def removeStale (st : CState) (key : Nat) : CState :=
  releaseKey
    { st with multi_frame_messages := alErase st.multi_frame_messages key }
    key

/-- Controller::cleanup_stale_sessions (j1939.cpp lines 168 to 196). -/
def cleanup_stale_sessions (st : CState) (now : Nat) : CState :=
  (staleKeys st.multi_frame_messages now).foldl removeStale st

/-- Controller::is_bus_available (j1939.cpp lines 114 to 135), with the
bus mutex modelled as acquired. Returns the availability answer and the
possibly force-released state. -/
def is_bus_available (st : CState) (now : Nat) : Bool × CState :=
  if st.bus.bus_busy then
    if now > st.bus.bus_busy_timeout then
      (true, { st with bus := { st.bus with
          bus_busy := false, active_bam_sessions := [] } })
    else (false, st)
  else (true, st)

/-- The fully initialised session record written by the announce branches
of parse_tp_cm (j1939.cpp lines 247 to 257 and 271 to 281): every field
is assigned, data is cleared. -/
def openSession (size pgn src tag tp now : Nat) : MultiFrameMessage :=
  { data := []
    total_size := size
    pgn := pgn
    source_addr := src
    session_number := tag
    packets_received := 0
    total_packets := tp
    complete := false
    last_activity_time := now }

/-- Controller::parse_tp_cm (j1939.cpp lines 209 to 299). -/
def parse_tp_cm (st : CState) (now : Nat) (frame : can_frame) (src_addr : Nat) : CState :=
  let control_byte := frame.byteAt 0
  let session_number := control_byte / 16 % 16
  let src := src_addr % 256
  let session_id := session_number * 256 + src
  let chk := is_session_valid st now session_number src
  if chk.1 = false then chk.2
  else
    let st1 := cleanup_stale_sessions chk.2 now
    if control_byte % 16 = 0 then
      let message_size := frame.byteAt 1 + frame.byteAt 2 * 256
      let total_packets0 := frame.byteAt 3
      let pgn := frame.byteAt 5 + frame.byteAt 6 * 256 + frame.byteAt 7 * 65536
      let calculated_packets := (message_size + 6) / 7
      let total_packets :=
        if total_packets0 = 255 ∨ total_packets0 = 0 then calculated_packets
        else total_packets0
      if message_size = 0 ∨ calculated_packets = 0 then st1
      else
        { st1 with
          bus := { bus_busy := true
                   bus_busy_timeout := (now + total_packets * 200 + 500) % 4294967296
                   active_bam_sessions := setInsert st1.bus.active_bam_sessions session_id }
          multi_frame_messages := alInsert st1.multi_frame_messages session_id
            (openSession message_size pgn src session_number total_packets now) }
    else if control_byte % 16 = 1 then
      let message_size := frame.byteAt 1 + frame.byteAt 2 * 256
      let total_packets0 := frame.byteAt 3
      let pgn := frame.byteAt 5 + frame.byteAt 6 * 256 + frame.byteAt 7 * 65536
      let calculated_packets := (message_size + 6) / 7
      let total_packets :=
        if total_packets0 = 255 ∨ total_packets0 = 0 then calculated_packets
        else total_packets0
      { st1 with
        multi_frame_messages := alInsert st1.multi_frame_messages session_id
          (openSession message_size pgn src session_number total_packets now) }
    else if control_byte = 255 then
      releaseKey
        { st1 with multi_frame_messages := alErase st1.multi_frame_messages session_id }
        session_id
    else st1

/-- std::vector::resize used for growth only (j1939.cpp lines 356 to 358):
the branch resizes exactly when the current size is smaller, and resize
value-initialises the new elements to 0. -/
def listResizeUp (l : List Nat) (n : Nat) : List Nat :=
  if l.length < n then l ++ List.replicate (n - l.length) 0 else l

/-- memcpy of n bytes from src into dst at position pos
(j1939.cpp line 360). -/
def listOverwrite (dst : List Nat) (pos : Nat) (src : List Nat) (n : Nat) : List Nat :=
  dst.take pos ++ src.take n ++ dst.drop (pos + n)

/-- Controller::parse_tp_dt (j1939.cpp lines 301 to 378), including the
sink emission of process_complete_message (lines 198 to 207). -/
def parse_tp_dt (st : CState) (now : Nat) (frame : can_frame) (src_addr : Nat) : CState :=
  let first_byte := frame.byteAt 0
  let sequence_number := first_byte % 16
  let session_number := first_byte / 16 % 16
  let session_id := session_number * 256 + src_addr % 256
  if sequence_number = 0 ∨ sequence_number > 15 then st
  else
    match alFind? st.multi_frame_messages session_id with
    | none => st
    | some mfm0 =>
      let mfm := { mfm0 with last_activity_time := now }
      let expected_seq :=
        if mfm.packets_received % 15 = 0 then 1 else mfm.packets_received % 15 + 1
      if sequence_number ≠ expected_seq then
        releaseKey
          { st with multi_frame_messages := alErase st.multi_frame_messages session_id }
          session_id
      else
        let start_pos := mfm.packets_received * 7
        if start_pos ≥ mfm.total_size then
          { st with multi_frame_messages := alErase st.multi_frame_messages session_id }
        else
          let bytes_to_copy :=
            if mfm.total_size - start_pos < 7 then mfm.total_size - start_pos else 7
          let d2 := listOverwrite (listResizeUp mfm.data (start_pos + bytes_to_copy))
            start_pos (frame.bytes.drop 1) bytes_to_copy
          let mfm2 := { mfm with data := d2, packets_received := mfm.packets_received + 1 }
          if mfm2.packets_received ≥ mfm2.total_packets then
            releaseKey
              { st with
                multi_frame_messages := alErase st.multi_frame_messages session_id
                output := st.output ++
                  [{ pgn := mfm2.pgn
                     sender := mfm2.source_addr
                     size := SizeField.num mfm2.total_size
                     dataHex := bytesHex mfm2.data }] }
              session_id
          else
            { st with
              multi_frame_messages := alInsert st.multi_frame_messages session_id mfm2 }

/-- The PGN computation of decode_j1939_message (j1939.cpp lines 385 to
397) on the 29-bit identifier: pgn = (id >> 8) & 0x3FFFF, masked with
0x3FF00 in the PDU1 case, then or-ed with pdu_format << 8. The shifted
masks are written with division and remainder; the final overlapping or
is kept as a bitwise or. -/
def decoded_pgn (id : Nat) : Nat :=
  (if id / 65536 % 256 < 240 then id / 256 % 262144 / 256 * 256 else id / 256 % 262144) |||
    id / 65536 % 256 * 256

/-- Controller::decode_j1939_message (j1939.cpp lines 380 to 413):
drop non-extended frames, parse the identifier, dispatch on the PGN; the
single-frame branch prints one record with size SF and the first can_dlc
data bytes in hex. -/
def decode_j1939_message (st : CState) (now : Nat) (frame : can_frame) : CState :=
  if frame.can_id % 4294967296 / 2147483648 = 0 then st
  else
    let id := frame.can_id % 536870912
    let src_addr := id % 256
    let pgn := decoded_pgn id
    if pgn = PGN_TP_CM then parse_tp_cm st now frame src_addr
    else if pgn = PGN_TP_DT then parse_tp_dt st now frame src_addr
    else if pgn = PGN_REQUEST then st
    else
      { st with output := st.output ++
          [{ pgn := pgn
             sender := src_addr
             size := SizeField.sf
             dataHex := bytesHex (frame.bytes.take frame.can_dlc) }] }

/-- Feed a list of frames to decode_j1939_message in order. -/
def runFrames (st : CState) (now : Nat) (frames : List can_frame) : CState :=
  frames.foldl (fun s f => decode_j1939_message s now f) st

/-- The session tag pool working_sessions of send_multi_frame_message
(j1939.cpp line 482). -/
def working_sessions : List Nat := [2, 3, 6, 7, 10, 11]

/-- The BAM announce frame built by send_multi_frame_message (j1939.cpp
lines 490 to 508). data[0] = 0x20 | (session << 4) genuinely overlaps, so
the or is kept; the identifier 0x18EC0000 | 0xFF << 8 | source | EFF flag
is a sum of disjoint fields once the source is reduced to a byte. -/
def mkBamFrame (pgn size tag sa : Nat) : can_frame :=
  { can_id := 2147483648 + 0x18EC0000 + 255 * 256 + sa % 256
    can_dlc := 8
    data := [32 ||| (tag % 16 * 16),
             size % 256,
             size / 256 % 256,
             if (size + 6) / 7 > 255 then 255 else (size + 6) / 7 % 256,
             255,
             pgn % 256,
             pgn / 256 % 256,
             pgn / 65536 % 256] }

/-- The TP.DT data frame built for 1-based packet number seq by
send_multi_frame_message (j1939.cpp lines 527 to 556): wrapped sequence
field in the low nibble, session tag in the high nibble (disjoint once
the sequence guard has run), up to 7 payload bytes, padding 0xFF. -/
def mkDtFrame (tag sa size : Nat) (data : List Nat) (seq : Nat) : can_frame :=
  let data_offset := (seq - 1) * 7
  let s1 := if seq > 15 then (seq - 1) % 15 + 1 else seq
  let seq_to_send := if s1 < 1 ∨ s1 > 15 then 1 else s1
  let bytes_to_send := if data_offset + 7 > size then size - data_offset else 7
  { can_id := 2147483648 + 0x18EB0000 + 255 * 256 + sa % 256
    can_dlc := 8
    data := (seq_to_send + tag % 16 * 16) ::
            ((data.drop data_offset).take bytes_to_send ++
             List.replicate (7 - bytes_to_send) 255) }

/-- Controller::send_multi_frame_message (j1939.cpp lines 466 to 577),
modelled as the ordered list of frames put on the wire together with the
returned boolean, under the assumptions stated at the top of the file
(bus gate passes, every transmission succeeds, in which case the function
returns true after the loop). The process-wide round-robin session_index
is an explicit parameter; the tag used is working_sessions[index % 6]. -/
def send_multi_frame_message (pgn : Nat) (payload : List Nat) (size : Nat)
    (session_index : Nat) (source_address : Nat) : List can_frame × Bool :=
  let sa := source_address % 256
  let sz := size % 65536
  let data := payload.map (fun b => b % 256)
  let total_packets := (sz + 6) / 7
  let tag := working_sessions.getD (session_index % 6) 2
  (mkBamFrame pgn sz tag sa ::
     (List.range total_packets).map (fun i => mkDtFrame tag sa sz data (i + 1)),
   true)

/-- Controller::send_single_frame_message (j1939.cpp lines 415 to 446),
modelled as the frame put on the wire (none when the length check fails),
under the same transmit assumptions. The dst argument is accepted and
ignored exactly as in the source, which derives pdu_specific from the PGN
alone. -/
def send_single_frame_message (pgn dst : Nat) (payload : List Nat) (len : Nat)
    (source_address : Nat) : Option can_frame :=
  if len % 256 > 8 then none
  else
    some { can_id := 2147483648 + 0x18000000 +
             (pgn / 256 % 256) * 65536 + (pgn % 256) * 256 + source_address % 256
           can_dlc := len % 256
           data := (payload.map (fun b => b % 256)).take (len % 256) }

/-- A controller state holding exactly one live reassembly session that
also owns the bus: the shape produced by a BAM announce and maintained
between data packets. -/
def midState (key : Nat) (s : MultiFrameMessage) (dl : Nat) : CState :=
  { multi_frame_messages := [(key, s)]
    bus := { bus_busy := true, bus_busy_timeout := dl, active_bam_sessions := [key] }
    output := [] }

/-- The reassembly session for payload prefix of k packets, as maintained
by parse_tp_dt during the round trip of a message of emb-coded PGN. -/
def mkSess (emb sa tag tp now size : Nat) (p : List Nat) (k : Nat) : MultiFrameMessage :=
  { data := p.take (k * 7)
    total_size := size
    pgn := emb
    source_addr := sa
    session_number := tag
    packets_received := k
    total_packets := tp
    complete := false
    last_activity_time := now }

/-- The byte count copied from an in-sequence TP.DT frame into the session
(j1939.cpp line 354): min(7, total_size - start_pos). -/
def dtBtc (m : MultiFrameMessage) : Nat :=
  if m.total_size - m.packets_received * 7 < 7 then m.total_size - m.packets_received * 7
  else 7

/-- The data buffer of a session after absorbing an in-sequence TP.DT
frame (j1939.cpp lines 356 to 360). -/
def dtData (m : MultiFrameMessage) (f : can_frame) : List Nat :=
  listOverwrite (listResizeUp m.data (m.packets_received * 7 + dtBtc m))
    (m.packets_received * 7) (f.bytes.drop 1) (dtBtc m)

/-- The session record after absorbing an in-sequence TP.DT frame. -/
def dtNext (m : MultiFrameMessage) (f : can_frame) (now : Nat) : MultiFrameMessage :=
  { m with
    data := dtData m f
    packets_received := m.packets_received + 1
    last_activity_time := now }

/-- The per-session bound of the claims: the data buffer never exceeds the
announced total size, and the announced total size fits in a uint16. -/
def sessionsBounded (st : CState) : Prop :=
  ∀ p ∈ st.multi_frame_messages,
    (p : Nat × MultiFrameMessage).2.data.length ≤ p.2.total_size ∧ p.2.total_size ≤ 65535

/-- Example BAM announce frame: session tag 2 from source 0x32, total
size 7 but announced total packet count 2, embedded PGN 0xEF02. -/
def exBam7 : can_frame := ⟨0x98ECFF32, 8, [0x20, 7, 0, 2, 255, 2, 239, 0]⟩

/-- Example first TP.DT frame for session tag 2 from source 0x32. -/
def exDt1 : can_frame := ⟨0x98EBFF32, 8, [0x21, 1, 2, 3, 4, 5, 6, 7]⟩

/-- Example second TP.DT frame for session tag 2 from source 0x32. -/
def exDt2 : can_frame := ⟨0x98EBFF32, 8, [0x22, 8, 9, 10, 11, 12, 13, 14]⟩

/-- Example third TP.DT frame for session tag 2 from source 0x32. -/
def exDt3 : can_frame := ⟨0x98EBFF32, 8, [0x23, 15, 16, 17, 18, 19, 20, 21]⟩

/-- Example mid-transfer session: 2 of 3 packets of a 21-byte payload
received. -/
def exSessMid : MultiFrameMessage :=
  ⟨[1, 2, 3, 4, 5, 6, 7, 8, 9, 10, 11, 12, 13, 14], 21, 61186, 50, 2, 2, 3, false, 0⟩

/-! ## General helper lemmas -/

theorem byteAt_lt (f : can_frame) (i : Nat) : f.byteAt i < 256 := by
  unfold can_frame.byteAt
  omega

theorem or_decide_absorb {p q : Prop} [Decidable p] [Decidable q] (h : q → p) :
    (decide p || decide q) = decide p := by
  by_cases hq : q
  · simp [hq, h hq]
  · simp [hq]

theorem lor_mid (hi pf lo : Nat) (hlo : lo < 256) (hpf : pf < 256) :
    (hi * 65536 + pf * 256 + lo) ||| pf * 256 = hi * 65536 + pf * 256 + lo := by
  apply Nat.eq_of_testBit_eq
  intro i
  rw [Nat.testBit_lor]
  rcases Nat.lt_or_ge i 16 with h16 | h16
  · rw [Nat.testBit_to_div_mod, Nat.testBit_to_div_mod]
    apply or_decide_absorb
    intro h
    interval_cases i <;> omega
  · have hb : pf * 256 < 2 ^ i := by
      calc pf * 256 < 65536 := by omega
        _ = 2 ^ 16 := by norm_num
        _ ≤ 2 ^ i := Nat.pow_le_pow_right (by norm_num) h16
    rw [Nat.testBit_lt_two_pow hb, Bool.or_false]

theorem decoded_pgn_eq (id : Nat) :
    decoded_pgn id = id / 16777216 % 4 * 65536 + id / 65536 % 256 * 256 +
      (if id / 65536 % 256 < 240 then 0 else id / 256 % 256) := by
  unfold decoded_pgn
  by_cases hp : id / 65536 % 256 < 240
  · rw [if_pos hp, if_pos hp,
      (by omega : id / 256 % 262144 / 256 * 256
        = id / 16777216 % 4 * 65536 + id / 65536 % 256 * 256 + 0),
      lor_mid _ _ _ (by omega) (by omega)]
  · rw [if_neg hp, if_neg hp,
      (by omega : id / 256 % 262144
        = id / 16777216 % 4 * 65536 + id / 65536 % 256 * 256 + id / 256 % 256),
      lor_mid _ _ _ (by omega) (by omega)]

/-! ## C3 -/

/-- C3 counterexample: the identifier 0x01EE0010 is a 29-bit extended
identifier with PDU format 0xEE < 240 and a set data-page bit; the code
computes PGN 0x1EE00, not pdu_format << 8 = 0xEE00 as the claim states. -/
theorem c3_counterexample :
    0x01EE0010 < 2 ^ 29 ∧ 0x01EE0010 / 65536 % 256 = 0xEE ∧ (0xEE : Nat) < 240 ∧
    decoded_pgn 0x01EE0010 ≠ 0xEE * 256 := by decide

/-- C3 amended: for every identifier the PGN computed by
decode_j1939_message also carries bits 24 and 25 of the identifier (the
reserved/data-page bits) as PGN bits 16 and 17: PGN = dp << 16 or
pdu_format << 8 in the PDU1 case, with pdu_specific additionally or-ed in
when pdu_format is at least 240 (dp = (id >> 24) & 0x3). -/
theorem c3_theorem (id : Nat) :
    decoded_pgn id = id / 16777216 % 4 * 65536 + id / 65536 % 256 * 256 +
      (if id / 65536 % 256 < 240 then 0 else id / 256 % 256) :=
  decoded_pgn_eq id

/-! ## C10 -/

/-- C10: a multi-frame send of size 0 emits exactly the announce frame,
which advertises total size 0 (bytes 1 and 2) and total packets 0
(byte 3), emits no data frames, and reports success. -/
theorem c10_theorem : ∀ pgn payload idx sa,
    send_multi_frame_message pgn payload 0 idx sa =
      ([mkBamFrame pgn 0 (working_sessions.getD (idx % 6) 2) (sa % 256)], true) ∧
    (mkBamFrame pgn 0 (working_sessions.getD (idx % 6) 2) (sa % 256)).byteAt 1 = 0 ∧
    (mkBamFrame pgn 0 (working_sessions.getD (idx % 6) 2) (sa % 256)).byteAt 2 = 0 ∧
    (mkBamFrame pgn 0 (working_sessions.getD (idx % 6) 2) (sa % 256)).byteAt 3 = 0 := by
  intro pgn payload idx sa
  refine ⟨rfl, rfl, rfl, rfl⟩

/-! ## C1 -/

/-- C1: a TP.CM frame whose control byte is 0xFF never changes the state:
its session number decodes to 15, which is_valid_session rejects, so
parse_tp_cm returns before reaching the teardown branch. In particular no
session is closed and no bus ownership is released. -/
theorem c1_theorem (st : CState) (now : Nat) (f : can_frame) (src : Nat)
    (h : f.byteAt 0 = 255) : parse_tp_cm st now f src = st := by
  simp only [parse_tp_cm, h, is_session_valid, is_valid_session]
  norm_num

/-- Witness for c1_theorem: an abort frame aimed at a live session of key
(2, 0x32) leaves the state, including that session, untouched. -/
theorem c1_theorem_witness :
    parse_tp_cm (midState 562 (openSession 21 61186 50 2 3 0) 1100) 0
        ⟨0x98ECFF32, 8, [255, 0, 0, 0, 0, 0, 0, 0]⟩ 50 =
      midState 562 (openSession 21 61186 50 2 3 0) 1100 :=
  c1_theorem _ _ _ _ (by decide)

/-! ## C7 -/

theorem parse_tp_cm_bam_bus (st : CState) (now : Nat) (f : can_frame) (src : Nat)
    (hchk : (is_session_valid st now (f.byteAt 0 / 16 % 16) (src % 256)).1 = true)
    (hc0 : f.byteAt 0 % 16 = 0)
    (hsz : f.byteAt 1 + f.byteAt 2 * 256 ≠ 0) :
    (parse_tp_cm st now f src).bus.bus_busy = true ∧
    (parse_tp_cm st now f src).bus.bus_busy_timeout =
      (now + (if f.byteAt 3 = 255 ∨ f.byteAt 3 = 0
        then (f.byteAt 1 + f.byteAt 2 * 256 + 6) / 7
        else f.byteAt 3) * 200 + 500) % 4294967296 := by
  have h1 : ¬(f.byteAt 1 = 0 ∧ f.byteAt 2 = 0 ∨
      (f.byteAt 1 + f.byteAt 2 * 256 + 6) / 7 = 0) := by omega
  simp only [parse_tp_cm, hchk, hc0]
  simp [h1]

/-- C7: is_bus_available answers not-busy as true and busy-before-deadline
as false without changing the state, and when busy past the deadline it
force-releases (bus_busy false, owners cleared) and answers true; an
accepted BAM announce (admissible session, control code 0, nonzero size)
sets bus_busy and sets the deadline to now + total_packets * 200 + 500
milliseconds, total_packets being the announced byte 3 or, when that is 0
or 0xFF, the derived packet count. -/
theorem c7_theorem (st : CState) (now : Nat) (f : can_frame) (src : Nat)
    (hchk : (is_session_valid st now (f.byteAt 0 / 16 % 16) (src % 256)).1 = true)
    (hc0 : f.byteAt 0 % 16 = 0)
    (hsz : f.byteAt 1 + f.byteAt 2 * 256 ≠ 0)
    (hov : now + (if f.byteAt 3 = 255 ∨ f.byteAt 3 = 0
        then (f.byteAt 1 + f.byteAt 2 * 256 + 6) / 7
        else f.byteAt 3) * 200 + 500 < 4294967296) :
    ((is_bus_available st now).1 =
      (!st.bus.bus_busy || decide (st.bus.bus_busy_timeout < now))) ∧
    (st.bus.bus_busy = false → is_bus_available st now = (true, st)) ∧
    (st.bus.bus_busy = true → now ≤ st.bus.bus_busy_timeout →
      is_bus_available st now = (false, st)) ∧
    (st.bus.bus_busy = true → st.bus.bus_busy_timeout < now →
      (is_bus_available st now).1 = true ∧
      (is_bus_available st now).2.bus.bus_busy = false ∧
      (is_bus_available st now).2.bus.active_bam_sessions = []) ∧
    ((parse_tp_cm st now f src).bus.bus_busy = true ∧
     (parse_tp_cm st now f src).bus.bus_busy_timeout =
       now + (if f.byteAt 3 = 255 ∨ f.byteAt 3 = 0
         then (f.byteAt 1 + f.byteAt 2 * 256 + 6) / 7
         else f.byteAt 3) * 200 + 500) := by
  refine ⟨?_, ?_, ?_, ?_, ?_⟩
  · unfold is_bus_available
    cases hb : st.bus.bus_busy with
    | false => simp
    | true =>
      by_cases ht : now > st.bus.bus_busy_timeout
      · simp [ht]
      · have ht2 : ¬st.bus.bus_busy_timeout < now := by omega
        simp [ht, ht2]
  · intro hb; simp [is_bus_available, hb]
  · intro hb ht
    have ht2 : ¬now > st.bus.bus_busy_timeout := by omega
    simp [is_bus_available, hb, ht2]
  · intro hb ht
    simp [is_bus_available, hb, ht]
  · have h2 := parse_tp_cm_bam_bus st now f src hchk hc0 hsz
    exact ⟨h2.1, by rw [h2.2, Nat.mod_eq_of_lt hov]⟩

/-- Witness for c7_theorem at a concrete admissible BAM announce over the
fresh controller state. -/
theorem c7_theorem_witness :
    ((is_bus_available initState 0).1 =
      (!initState.bus.bus_busy || decide (initState.bus.bus_busy_timeout < 0))) ∧
    (initState.bus.bus_busy = false → is_bus_available initState 0 = (true, initState)) ∧
    (initState.bus.bus_busy = true → 0 ≤ initState.bus.bus_busy_timeout →
      is_bus_available initState 0 = (false, initState)) ∧
    (initState.bus.bus_busy = true → initState.bus.bus_busy_timeout < 0 →
      (is_bus_available initState 0).1 = true ∧
      (is_bus_available initState 0).2.bus.bus_busy = false ∧
      (is_bus_available initState 0).2.bus.active_bam_sessions = []) ∧
    ((parse_tp_cm initState 0 ⟨0x98ECFF32, 8, [0x20, 21, 0, 3, 255, 2, 239, 0]⟩ 50).bus.bus_busy = true ∧
     (parse_tp_cm initState 0 ⟨0x98ECFF32, 8, [0x20, 21, 0, 3, 255, 2, 239, 0]⟩ 50).bus.bus_busy_timeout =
       0 + (if (⟨0x98ECFF32, 8, [0x20, 21, 0, 3, 255, 2, 239, 0]⟩ : can_frame).byteAt 3 = 255 ∨
              (⟨0x98ECFF32, 8, [0x20, 21, 0, 3, 255, 2, 239, 0]⟩ : can_frame).byteAt 3 = 0
         then ((⟨0x98ECFF32, 8, [0x20, 21, 0, 3, 255, 2, 239, 0]⟩ : can_frame).byteAt 1 +
               (⟨0x98ECFF32, 8, [0x20, 21, 0, 3, 255, 2, 239, 0]⟩ : can_frame).byteAt 2 * 256 + 6) / 7
         else (⟨0x98ECFF32, 8, [0x20, 21, 0, 3, 255, 2, 239, 0]⟩ : can_frame).byteAt 3) * 200 + 500) :=
  c7_theorem initState 0 ⟨0x98ECFF32, 8, [0x20, 21, 0, 3, 255, 2, 239, 0]⟩ 50
    (by decide) (by decide) (by decide) (by decide)

/-! ## C9 -/

theorem removeStale_table (st : CState) (k : Nat) :
    (removeStale st k).multi_frame_messages = alErase st.multi_frame_messages k := by
  unfold removeStale releaseKey
  split <;> rfl

theorem foldl_removeStale_table (L : List Nat) (st : CState) :
    (L.foldl removeStale st).multi_frame_messages =
      L.foldl alErase st.multi_frame_messages := by
  induction L generalizing st with
  | nil => rfl
  | cons k L ih => simp only [List.foldl_cons, ih, removeStale_table]

theorem alErase_cons_ne {α : Type} (a k : Nat) (v : α) (m : List (Nat × α)) (h : k ≠ a) :
    alErase ((k, v) :: m) a = (k, v) :: alErase m a := by
  simp [alErase, h]

theorem foldl_alErase_cons_notMem {α : Type} (L : List Nat) (k : Nat) (v : α)
    (m : List (Nat × α)) (h : k ∉ L) :
    L.foldl alErase ((k, v) :: m) = (k, v) :: L.foldl alErase m := by
  induction L generalizing m with
  | nil => rfl
  | cons a L ih =>
    simp only [List.mem_cons, not_or] at h
    simp only [List.foldl_cons]
    rw [alErase_cons_ne a k v m h.1]
    exact ih _ h.2

theorem mem_staleKeys {x : Nat} {m : List (Nat × MultiFrameMessage)} {now : Nat}
    (h : x ∈ staleKeys m now) : x ∈ m.map Prod.fst := by
  simp only [staleKeys, List.mem_map, List.mem_filter] at h
  obtain ⟨p, ⟨hp, _⟩, he⟩ := h
  exact List.mem_map.2 ⟨p, hp, he⟩

theorem staleKeys_cons (k : Nat) (v : MultiFrameMessage)
    (m : List (Nat × MultiFrameMessage)) (now : Nat) :
    staleKeys ((k, v) :: m) now =
      if staleB now v.last_activity_time then k :: staleKeys m now else staleKeys m now := by
  simp only [staleKeys, List.filter_cons]
  split <;> simp

theorem foldl_alErase_staleKeys (m : List (Nat × MultiFrameMessage)) (now : Nat)
    (h : (m.map Prod.fst).Nodup) :
    (staleKeys m now).foldl alErase m =
      m.filter (fun it => !staleB now it.2.last_activity_time) := by
  induction m with
  | nil => rfl
  | cons p m ih =>
    obtain ⟨k, v⟩ := p
    simp only [List.map_cons, List.nodup_cons] at h
    obtain ⟨hk, hnd⟩ := h
    rw [staleKeys_cons]
    by_cases hs : staleB now v.last_activity_time
    · rw [if_pos hs]
      simp only [List.foldl_cons]
      rw [show alErase ((k, v) :: m) k = m from by simp [alErase]]
      rw [ih hnd, List.filter_cons]
      simp [hs]
    · rw [if_neg hs]
      rw [foldl_alErase_cons_notMem _ _ _ _ (fun hc => hk (mem_staleKeys hc))]
      rw [ih hnd, List.filter_cons]
      simp [hs]

theorem cleanup_table_char (st : CState) (now : Nat)
    (h : (st.multi_frame_messages.map Prod.fst).Nodup) :
    (cleanup_stale_sessions st now).multi_frame_messages =
      st.multi_frame_messages.filter (fun it => !staleB now it.2.last_activity_time) := by
  unfold cleanup_stale_sessions
  rw [foldl_removeStale_table, foldl_alErase_staleKeys _ _ h]

theorem staleKeys_filter (m : List (Nat × MultiFrameMessage)) (now : Nat) :
    staleKeys (m.filter (fun it => !staleB now it.2.last_activity_time)) now = [] := by
  simp [staleKeys, List.filter_filter, Bool.and_not_self]

/-- C9: with the well-formedness every std::map state has (no duplicate
keys), one stale sweep removes every stale entry, so a second sweep with
the same now finds nothing stale and leaves the session table
identical. -/
theorem c9_theorem (st : CState) (now : Nat)
    (h : (st.multi_frame_messages.map Prod.fst).Nodup) :
    (cleanup_stale_sessions (cleanup_stale_sessions st now) now).multi_frame_messages =
      (cleanup_stale_sessions st now).multi_frame_messages := by
  have h2 := cleanup_table_char st now h
  conv_lhs => rw [cleanup_stale_sessions]
  rw [h2, staleKeys_filter, List.foldl_nil]
  exact h2

/-- Witness for c9_theorem on a table holding one stale and one fresh
session. -/
theorem c9_theorem_witness :
    (cleanup_stale_sessions (cleanup_stale_sessions
        { multi_frame_messages :=
            [(562, openSession 21 61186 50 2 3 0), (818, openSession 35 61186 50 3 5 4600)]
          bus := { bus_busy := true, bus_busy_timeout := 99, active_bam_sessions := [562, 818] }
          output := [] } 5000) 5000).multi_frame_messages =
      (cleanup_stale_sessions
        { multi_frame_messages :=
            [(562, openSession 21 61186 50 2 3 0), (818, openSession 35 61186 50 3 5 4600)]
          bus := { bus_busy := true, bus_busy_timeout := 99, active_bam_sessions := [562, 818] }
          output := [] } 5000).multi_frame_messages :=
  c9_theorem _ 5000 (by decide)

/-! ## Branch lemmas for releaseKey and parse_tp_dt -/

theorem setErase_not_mem (s : List Nat) (k : Nat) (h : k ∉ s) : setErase s k = s := by
  induction s with
  | nil => rfl
  | cons x rest ih =>
    simp only [List.mem_cons, not_or] at h
    simp [setErase, Ne.symm h.1, ih h.2]

theorem releaseKey_table (st : CState) (k : Nat) :
    (releaseKey st k).multi_frame_messages = st.multi_frame_messages := by
  unfold releaseKey
  split <;> rfl

theorem releaseKey_output (st : CState) (k : Nat) :
    (releaseKey st k).output = st.output := by
  unfold releaseKey
  split <;> rfl

theorem releaseKey_owners (st : CState) (k : Nat) :
    (releaseKey st k).bus.active_bam_sessions = setErase st.bus.active_bam_sessions k := by
  unfold releaseKey
  split
  · rfl
  · rename_i h
    rw [setErase_not_mem]
    simpa using h

theorem tp_dt_seq0 (st : CState) (now : Nat) (f : can_frame) (src : Nat)
    (h : f.byteAt 0 % 16 = 0) : parse_tp_dt st now f src = st := by
  simp [parse_tp_dt, h]

theorem tp_dt_mismatch (st : CState) (now : Nat) (f : can_frame) (src : Nat)
    (m : MultiFrameMessage)
    (hfind : alFind? st.multi_frame_messages (f.byteAt 0 / 16 % 16 * 256 + src % 256) = some m)
    (hseq0 : f.byteAt 0 % 16 ≠ 0)
    (hne : f.byteAt 0 % 16 ≠ m.packets_received % 15 + 1) :
    parse_tp_dt st now f src =
      releaseKey
        { st with multi_frame_messages :=
            alErase st.multi_frame_messages (f.byteAt 0 / 16 % 16 * 256 + src % 256) }
        (f.byteAt 0 / 16 % 16 * 256 + src % 256) := by
  have h1 : ¬(f.byteAt 0 % 16 = 0 ∨ f.byteAt 0 % 16 > 15) := by omega
  have hex : (if m.packets_received % 15 = 0 then (1 : Nat)
      else m.packets_received % 15 + 1) = m.packets_received % 15 + 1 := by
    split <;> omega
  simp only [parse_tp_dt, hfind]
  rw [if_neg h1, hex, if_pos hne]

theorem tp_dt_overflow (st : CState) (now : Nat) (f : can_frame) (src : Nat)
    (m : MultiFrameMessage)
    (hfind : alFind? st.multi_frame_messages (f.byteAt 0 / 16 % 16 * 256 + src % 256) = some m)
    (hseq0 : f.byteAt 0 % 16 ≠ 0)
    (heq : f.byteAt 0 % 16 = m.packets_received % 15 + 1)
    (hover : m.packets_received * 7 ≥ m.total_size) :
    parse_tp_dt st now f src =
      { st with multi_frame_messages :=
          alErase st.multi_frame_messages (f.byteAt 0 / 16 % 16 * 256 + src % 256) } := by
  have h1 : ¬(f.byteAt 0 % 16 = 0 ∨ f.byteAt 0 % 16 > 15) := by omega
  have hex : (if m.packets_received % 15 = 0 then (1 : Nat)
      else m.packets_received % 15 + 1) = m.packets_received % 15 + 1 := by
    split <;> omega
  have hne : ¬(f.byteAt 0 % 16 ≠ m.packets_received % 15 + 1) := by omega
  simp only [parse_tp_dt, hfind]
  rw [if_neg h1, hex, if_neg hne, if_pos hover]

theorem tp_dt_accept (st : CState) (now : Nat) (f : can_frame) (src : Nat)
    (m : MultiFrameMessage)
    (hfind : alFind? st.multi_frame_messages (f.byteAt 0 / 16 % 16 * 256 + src % 256) = some m)
    (hseq0 : f.byteAt 0 % 16 ≠ 0)
    (heq : f.byteAt 0 % 16 = m.packets_received % 15 + 1)
    (hin : m.packets_received * 7 < m.total_size)
    (hnc : m.packets_received + 1 < m.total_packets) :
    parse_tp_dt st now f src =
      { st with multi_frame_messages :=
          alInsert st.multi_frame_messages (f.byteAt 0 / 16 % 16 * 256 + src % 256) (dtNext m f now) } := by
  have h1 : ¬(f.byteAt 0 % 16 = 0 ∨ f.byteAt 0 % 16 > 15) := by omega
  have hex : (if m.packets_received % 15 = 0 then (1 : Nat)
      else m.packets_received % 15 + 1) = m.packets_received % 15 + 1 := by
    split <;> omega
  have hne : ¬(f.byteAt 0 % 16 ≠ m.packets_received % 15 + 1) := by omega
  have hov : ¬(m.packets_received * 7 ≥ m.total_size) := by omega
  have hend : ¬(m.packets_received + 1 ≥ m.total_packets) := by omega
  simp only [parse_tp_dt, hfind]
  rw [if_neg h1, hex, if_neg hne, if_neg hov, if_neg hend]
  rfl

theorem tp_dt_complete (st : CState) (now : Nat) (f : can_frame) (src : Nat)
    (m : MultiFrameMessage)
    (hfind : alFind? st.multi_frame_messages (f.byteAt 0 / 16 % 16 * 256 + src % 256) = some m)
    (hseq0 : f.byteAt 0 % 16 ≠ 0)
    (heq : f.byteAt 0 % 16 = m.packets_received % 15 + 1)
    (hin : m.packets_received * 7 < m.total_size)
    (hc : m.packets_received + 1 ≥ m.total_packets) :
    parse_tp_dt st now f src =
      releaseKey
        { st with
          multi_frame_messages :=
            alErase st.multi_frame_messages (f.byteAt 0 / 16 % 16 * 256 + src % 256)
          output := st.output ++
            [{ pgn := m.pgn
               sender := m.source_addr
               size := SizeField.num m.total_size
               dataHex := bytesHex (dtData m f) }] }
        (f.byteAt 0 / 16 % 16 * 256 + src % 256) := by
  have h1 : ¬(f.byteAt 0 % 16 = 0 ∨ f.byteAt 0 % 16 > 15) := by omega
  have hex : (if m.packets_received % 15 = 0 then (1 : Nat)
      else m.packets_received % 15 + 1) = m.packets_received % 15 + 1 := by
    split <;> omega
  have hne : ¬(f.byteAt 0 % 16 ≠ m.packets_received % 15 + 1) := by omega
  have hov : ¬(m.packets_received * 7 ≥ m.total_size) := by omega
  simp only [parse_tp_dt, hfind]
  rw [if_neg h1, hex, if_neg hne, if_neg hov, if_pos hc]
  rfl

/-! ## C5 -/

/-- C5 counterexample: a live session expecting sequence 1 receives a
TP.DT whose sequence field 0 differs from the expected value, yet the
state, session included, is completely unchanged. -/
theorem c5_counterexample :
    (0 : Nat) ≠ (openSession 21 61186 50 2 3 0).packets_received % 15 + 1 ∧
    parse_tp_dt (midState 562 (openSession 21 61186 50 2 3 0) 1100) 5
        ⟨0x98EBFF32, 8, [0x20, 1, 2, 3, 4, 5, 6, 7]⟩ 50 =
      midState 562 (openSession 21 61186 50 2 3 0) 1100 := by
  exact ⟨by decide, by decide⟩

/-- C5 amended: a TP.DT whose sequence field is nonzero (hence 1..15) and
differs from (packets_received % 15) + 1 destroys the session: the table
entry is erased, the key leaves the owners set, and nothing is emitted to
the sink; a sequence field of 0 is instead dropped before the session is
even looked up. -/
theorem c5_theorem (st : CState) (now : Nat) (f : can_frame) (src : Nat)
    (m : MultiFrameMessage)
    (hfind : alFind? st.multi_frame_messages (f.byteAt 0 / 16 % 16 * 256 + src % 256) = some m)
    (hseq0 : f.byteAt 0 % 16 ≠ 0)
    (hne : f.byteAt 0 % 16 ≠ m.packets_received % 15 + 1) :
    (parse_tp_dt st now f src).multi_frame_messages =
      alErase st.multi_frame_messages (f.byteAt 0 / 16 % 16 * 256 + src % 256) ∧
    (parse_tp_dt st now f src).bus.active_bam_sessions =
      setErase st.bus.active_bam_sessions (f.byteAt 0 / 16 % 16 * 256 + src % 256) ∧
    (parse_tp_dt st now f src).output = st.output := by
  rw [tp_dt_mismatch st now f src m hfind hseq0 hne]
  exact ⟨releaseKey_table _ _, releaseKey_owners _ _, releaseKey_output _ _⟩

/-- Witness for c5_theorem: a live session expecting sequence 1 receives
sequence 3; the session entry and its bus ownership disappear and no
record is emitted. -/
theorem c5_theorem_witness :
    (parse_tp_dt (midState 562 (openSession 21 61186 50 2 3 0) 1100) 5 exDt3 50).multi_frame_messages =
      alErase (midState 562 (openSession 21 61186 50 2 3 0) 1100).multi_frame_messages 562 ∧
    (parse_tp_dt (midState 562 (openSession 21 61186 50 2 3 0) 1100) 5 exDt3 50).bus.active_bam_sessions =
      setErase (midState 562 (openSession 21 61186 50 2 3 0) 1100).bus.active_bam_sessions 562 ∧
    (parse_tp_dt (midState 562 (openSession 21 61186 50 2 3 0) 1100) 5 exDt3 50).output =
      (midState 562 (openSession 21 61186 50 2 3 0) 1100).output :=
  c5_theorem (midState 562 (openSession 21 61186 50 2 3 0) 1100) 5 exDt3 50
    (openSession 21 61186 50 2 3 0) (by decide) (by decide) (by decide)

/-! ## C6 -/

/-- C6 counterexample: announce 7 bytes but 2 packets; the second
in-sequence data frame hits the overflow branch, which erases the table
entry while the key stays in the owners set: a key in owners without a
table entry. -/
theorem c6_counterexample :
    alFind? (runFrames initState 0 [exBam7, exDt1, exDt2]).multi_frame_messages 562 = none ∧
    (runFrames initState 0 [exBam7, exDt1, exDt2]).bus.active_bam_sessions.contains 562 = true := by
  exact ⟨by decide, by decide⟩

/-- C6 amended: in parse_tp_dt, the sequence-error removal and the
completion removal also erase the key from the owners set, but the
overflow removal (an in-sequence frame with packets_received * 7 at least
total_size) erases only the table entry and leaves the bus state, owners
included, unchanged, so a key in the owners set may lack a table
entry. -/
theorem c6_theorem (st : CState) (now : Nat) (f : can_frame) (src : Nat)
    (m : MultiFrameMessage)
    (hfind : alFind? st.multi_frame_messages (f.byteAt 0 / 16 % 16 * 256 + src % 256) = some m)
    (hseq0 : f.byteAt 0 % 16 ≠ 0) :
    (f.byteAt 0 % 16 = m.packets_received % 15 + 1 → m.packets_received * 7 ≥ m.total_size →
      (parse_tp_dt st now f src).multi_frame_messages =
        alErase st.multi_frame_messages (f.byteAt 0 / 16 % 16 * 256 + src % 256) ∧
      (parse_tp_dt st now f src).bus = st.bus) ∧
    (f.byteAt 0 % 16 ≠ m.packets_received % 15 + 1 →
      (parse_tp_dt st now f src).multi_frame_messages =
        alErase st.multi_frame_messages (f.byteAt 0 / 16 % 16 * 256 + src % 256) ∧
      (parse_tp_dt st now f src).bus.active_bam_sessions =
        setErase st.bus.active_bam_sessions (f.byteAt 0 / 16 % 16 * 256 + src % 256)) ∧
    (f.byteAt 0 % 16 = m.packets_received % 15 + 1 → m.packets_received * 7 < m.total_size →
      m.packets_received + 1 ≥ m.total_packets →
      (parse_tp_dt st now f src).multi_frame_messages =
        alErase st.multi_frame_messages (f.byteAt 0 / 16 % 16 * 256 + src % 256) ∧
      (parse_tp_dt st now f src).bus.active_bam_sessions =
        setErase st.bus.active_bam_sessions (f.byteAt 0 / 16 % 16 * 256 + src % 256)) := by
  refine ⟨?_, ?_, ?_⟩
  · intro heq hover
    rw [tp_dt_overflow st now f src m hfind hseq0 heq hover]
    exact ⟨rfl, rfl⟩
  · intro hne
    rw [tp_dt_mismatch st now f src m hfind hseq0 hne]
    exact ⟨releaseKey_table _ _, releaseKey_owners _ _⟩
  · intro heq hin hc
    rw [tp_dt_complete st now f src m hfind hseq0 heq hin hc]
    exact ⟨releaseKey_table _ _, releaseKey_owners _ _⟩

/-- Witness for c6_theorem: the overflow conjunct at the state reached
after exBam7 and exDt1, the mismatch conjunct and the completion conjunct
at concrete mid-transfer sessions. -/
theorem c6_theorem_witness :
    ((parse_tp_dt (runFrames initState 0 [exBam7, exDt1]) 0 exDt2 50).multi_frame_messages =
        alErase (runFrames initState 0 [exBam7, exDt1]).multi_frame_messages 562 ∧
      (parse_tp_dt (runFrames initState 0 [exBam7, exDt1]) 0 exDt2 50).bus =
        (runFrames initState 0 [exBam7, exDt1]).bus) ∧
    ((parse_tp_dt (midState 562 exSessMid 1100) 9 exDt1 50).multi_frame_messages =
        alErase (midState 562 exSessMid 1100).multi_frame_messages 562 ∧
      (parse_tp_dt (midState 562 exSessMid 1100) 9 exDt1 50).bus.active_bam_sessions =
        setErase (midState 562 exSessMid 1100).bus.active_bam_sessions 562) ∧
    ((parse_tp_dt (midState 562 exSessMid 1100) 9 exDt3 50).multi_frame_messages =
        alErase (midState 562 exSessMid 1100).multi_frame_messages 562 ∧
      (parse_tp_dt (midState 562 exSessMid 1100) 9 exDt3 50).bus.active_bam_sessions =
        setErase (midState 562 exSessMid 1100).bus.active_bam_sessions 562) :=
  ⟨(c6_theorem (runFrames initState 0 [exBam7, exDt1]) 0 exDt2 50
      ⟨[1, 2, 3, 4, 5, 6, 7], 7, 61186, 50, 2, 1, 2, false, 0⟩
      (by decide) (by decide)).1 (by decide) (by decide),
   (c6_theorem (midState 562 exSessMid 1100) 9 exDt1 50 exSessMid
      (by decide) (by decide)).2.1 (by decide),
   (c6_theorem (midState 562 exSessMid 1100) 9 exDt3 50 exSessMid
      (by decide) (by decide)).2.2 (by decide) (by decide) (by decide)⟩

/-! ## Association-list lookup lemmas -/

theorem alFind?_alInsert {α : Type} (m : List (Nat × α)) (k : Nat) (v : α) :
    alFind? (alInsert m k v) k = some v := by
  induction m with
  | nil => simp [alInsert, alFind?]
  | cons p m ih =>
    obtain ⟨k1, v1⟩ := p
    unfold alInsert
    by_cases h1 : k < k1
    · simp [h1, alFind?]
    · by_cases h2 : k = k1
      · simp [h1, h2, alFind?]
      · simp only [if_neg h1, if_neg h2]
        rw [alFind?, if_neg (fun hc => h2 hc.symm)]
        exact ih

theorem alFind?_eq_none_not_mem {α : Type} {m : List (Nat × α)} {k : Nat}
    (h : k ∉ m.map Prod.fst) : alFind? m k = none := by
  induction m with
  | nil => rfl
  | cons p m ih =>
    obtain ⟨k1, v1⟩ := p
    simp only [List.map_cons, List.mem_cons, not_or] at h
    rw [alFind?, if_neg (fun hc => h.1 hc.symm)]
    exact ih h.2

theorem alFind?_alErase_self {α : Type} {m : List (Nat × α)} (k : Nat)
    (h : (m.map Prod.fst).Nodup) : alFind? (alErase m k) k = none := by
  induction m with
  | nil => rfl
  | cons p m ih =>
    obtain ⟨k1, v1⟩ := p
    simp only [List.map_cons, List.nodup_cons] at h
    unfold alErase
    by_cases h1 : k1 = k
    · rw [if_pos h1]
      exact alFind?_eq_none_not_mem (h1 ▸ h.1)
    · rw [if_neg h1, alFind?, if_neg h1]
      exact ih h.2

theorem alFind?_alErase_of_none {α : Type} {m : List (Nat × α)} {x k : Nat}
    (h : alFind? m k = none) : alFind? (alErase m x) k = none := by
  induction m with
  | nil => rfl
  | cons p m ih =>
    obtain ⟨k1, v1⟩ := p
    rw [alFind?] at h
    by_cases h1 : k1 = k
    · rw [if_pos h1] at h
      exact absurd h (by simp)
    · rw [if_neg h1] at h
      unfold alErase
      by_cases h2 : k1 = x
      · rw [if_pos h2]
        exact h
      · rw [if_neg h2, alFind?, if_neg h1]
        exact ih h

theorem alFind?_foldl_alErase_none {α : Type} (L : List Nat) {m : List (Nat × α)} {k : Nat}
    (h : alFind? m k = none) : alFind? (L.foldl alErase m) k = none := by
  induction L generalizing m with
  | nil => exact h
  | cons x L ih => exact ih (alFind?_alErase_of_none h)

theorem alFind?_mem {α : Type} {m : List (Nat × α)} {k : Nat} {v : α}
    (h : alFind? m k = some v) : (k, v) ∈ m := by
  induction m with
  | nil => exact absurd h (by simp [alFind?])
  | cons p m ih =>
    obtain ⟨k1, v1⟩ := p
    rw [alFind?] at h
    by_cases h1 : k1 = k
    · rw [if_pos h1] at h
      obtain rfl := h1
      obtain rfl : v1 = v := by simpa using h
      exact List.mem_cons_self _ _
    · rw [if_neg h1] at h
      exact List.mem_cons_of_mem _ (ih h)

theorem mem_alErase {α : Type} {p : Nat × α} {m : List (Nat × α)} {k : Nat}
    (h : p ∈ alErase m k) : p ∈ m := by
  induction m with
  | nil => exact absurd h (by simp [alErase])
  | cons q m ih =>
    obtain ⟨k1, v1⟩ := q
    unfold alErase at h
    by_cases h1 : k1 = k
    · rw [if_pos h1] at h
      exact List.mem_cons_of_mem _ h
    · rw [if_neg h1] at h
      rcases List.mem_cons.1 h with h2 | h2
      · exact h2 ▸ List.mem_cons_self _ _
      · exact List.mem_cons_of_mem _ (ih h2)

theorem mem_alInsert {α : Type} {p : Nat × α} {m : List (Nat × α)} {k : Nat} {v : α}
    (h : p ∈ alInsert m k v) : p = (k, v) ∨ p ∈ m := by
  induction m with
  | nil => simpa [alInsert] using h
  | cons q m ih =>
    obtain ⟨k1, v1⟩ := q
    unfold alInsert at h
    by_cases h1 : k < k1
    · rw [if_pos h1] at h
      rcases List.mem_cons.1 h with h2 | h2
      · exact Or.inl h2
      · exact Or.inr h2
    · by_cases h2 : k = k1
      · rw [if_neg h1, if_pos h2] at h
        rcases List.mem_cons.1 h with h3 | h3
        · exact Or.inl h3
        · exact Or.inr (List.mem_cons_of_mem _ h3)
      · rw [if_neg h1, if_neg h2] at h
        rcases List.mem_cons.1 h with h3 | h3
        · exact Or.inr (h3 ▸ List.mem_cons_self _ _)
        · rcases ih h3 with h4 | h4
          · exact Or.inl h4
          · exact Or.inr (List.mem_cons_of_mem _ h4)

theorem mem_foldl_alErase {α : Type} {p : Nat × α} (L : List Nat) {m : List (Nat × α)}
    (h : p ∈ L.foldl alErase m) : p ∈ m := by
  induction L generalizing m with
  | nil => exact h
  | cons x L ih => exact mem_alErase (ih h)

/-! ## State lemmas for is_session_valid and cleanup -/

theorem is_session_valid_false_state (st : CState) (now a b : Nat)
    (h : (is_session_valid st now a b).1 = false) :
    (is_session_valid st now a b).2 = st := by
  by_cases hv : is_valid_session a
  · cases hf : alFind? st.multi_frame_messages (a * 256 + b % 256) with
    | none => simp [is_session_valid, hv, hf] at h
    | some m =>
      by_cases hs : staleB now m.last_activity_time
      · simp [is_session_valid, hv, hf, hs] at h
      · simp [is_session_valid, hv, hf, hs]
  · simp [is_session_valid, hv]

theorem is_session_valid_true_find (st : CState) (now a b : Nat)
    (hnod : (st.multi_frame_messages.map Prod.fst).Nodup)
    (h : (is_session_valid st now a b).1 = true) :
    alFind? (is_session_valid st now a b).2.multi_frame_messages (a * 256 + b % 256) = none := by
  by_cases hv : is_valid_session a
  · cases hf : alFind? st.multi_frame_messages (a * 256 + b % 256) with
    | none => simpa [is_session_valid, hv, hf] using hf
    | some m =>
      by_cases hs : staleB now m.last_activity_time
      · simp [is_session_valid, hv, hf, hs, releaseKey_table]
        exact alFind?_alErase_self _ hnod
      · simp [is_session_valid, hv, hf, hs] at h
  · simp [is_session_valid, hv] at h

theorem is_session_valid_snd_table_mem (st : CState) (now a b : Nat) {p : Nat × MultiFrameMessage}
    (h : p ∈ (is_session_valid st now a b).2.multi_frame_messages) :
    p ∈ st.multi_frame_messages := by
  by_cases hv : is_valid_session a
  · rcases hf : alFind? st.multi_frame_messages (a * 256 + b % 256) with _ | m
    · simpa [is_session_valid, hv, hf] using h
    · by_cases hs : staleB now m.last_activity_time
      · simp [is_session_valid, hv, hf, hs, releaseKey_table] at h
        exact mem_alErase h
      · simpa [is_session_valid, hv, hf, hs] using h
  · simpa [is_session_valid, hv] using h

theorem cleanup_mem {st : CState} {now : Nat} {p : Nat × MultiFrameMessage}
    (h : p ∈ (cleanup_stale_sessions st now).multi_frame_messages) :
    p ∈ st.multi_frame_messages := by
  rw [cleanup_stale_sessions, foldl_removeStale_table] at h
  exact mem_foldl_alErase _ h

theorem cleanup_find_none {st : CState} {now k : Nat}
    (h : alFind? st.multi_frame_messages k = none) :
    alFind? (cleanup_stale_sessions st now).multi_frame_messages k = none := by
  rw [cleanup_stale_sessions, foldl_removeStale_table]
  exact alFind?_foldl_alErase_none _ h

/-! ## C4 -/

theorem tp_cm_chk_false (st : CState) (now : Nat) (f : can_frame) (src : Nat)
    (h : (is_session_valid st now (f.byteAt 0 / 16 % 16) (src % 256)).1 = false) :
    parse_tp_cm st now f src =
      (is_session_valid st now (f.byteAt 0 / 16 % 16) (src % 256)).2 := by
  simp only [parse_tp_cm, h]
  simp

theorem tp_cm_rts_fresh (st : CState) (now : Nat) (f : can_frame) (src : Nat)
    (hchk : (is_session_valid st now (f.byteAt 0 / 16 % 16) (src % 256)).1 = true)
    (hc1 : f.byteAt 0 % 16 = 1) :
    parse_tp_cm st now f src =
      { cleanup_stale_sessions (is_session_valid st now (f.byteAt 0 / 16 % 16) (src % 256)).2 now with
        multi_frame_messages :=
          alInsert (cleanup_stale_sessions (is_session_valid st now (f.byteAt 0 / 16 % 16) (src % 256)).2 now).multi_frame_messages
            (f.byteAt 0 / 16 % 16 * 256 + src % 256)
            (openSession (f.byteAt 1 + f.byteAt 2 * 256)
              (f.byteAt 5 + f.byteAt 6 * 256 + f.byteAt 7 * 65536) (src % 256)
              (f.byteAt 0 / 16 % 16)
              (if f.byteAt 3 = 255 ∨ f.byteAt 3 = 0 then (f.byteAt 1 + f.byteAt 2 * 256 + 6) / 7
               else f.byteAt 3) now) } := by
  have h1 : ¬(f.byteAt 0 % 16 = 0) := by omega
  simp only [parse_tp_cm, hchk, hc1]
  simp

/-- C4 counterexample: an RTS announce (control code 1) with announced
total size 0, fed to the fresh controller, opens a session with
total_size 0 for its key, contradicting the claimed rejection. -/
theorem c4_counterexample :
    ((⟨0x98ECFF32, 8, [0x21, 0, 0, 0, 255, 2, 239, 0]⟩ : can_frame).byteAt 0) % 16 = 1 ∧
    ((⟨0x98ECFF32, 8, [0x21, 0, 0, 0, 255, 2, 239, 0]⟩ : can_frame).byteAt 1) +
      ((⟨0x98ECFF32, 8, [0x21, 0, 0, 0, 255, 2, 239, 0]⟩ : can_frame).byteAt 2) * 256 = 0 ∧
    (alFind? (decode_j1939_message initState 0
        ⟨0x98ECFF32, 8, [0x21, 0, 0, 0, 255, 2, 239, 0]⟩).multi_frame_messages 562).map
      MultiFrameMessage.total_size = some 0 := by
  exact ⟨by decide, by decide, by decide⟩

/-- C4 amended: a BAM announce (control code 0) with announced total size
0 is rejected: either the whole call leaves the state unchanged (a live
session already holds the key) or, after the admissibility check and the
stale sweep, no entry exists for its key; but an RTS announce (control
code 1) with total size 0 is not rejected: on an admissible fresh key it
opens a session whose total_size is the announced size, 0 included. -/
theorem c4_theorem (st : CState) (now : Nat) (f : can_frame) (src : Nat)
    (hnod : (st.multi_frame_messages.map Prod.fst).Nodup) :
    (f.byteAt 0 % 16 = 0 → f.byteAt 1 = 0 → f.byteAt 2 = 0 →
      parse_tp_cm st now f src = st ∨
      alFind? (parse_tp_cm st now f src).multi_frame_messages
        (f.byteAt 0 / 16 % 16 * 256 + src % 256) = none) ∧
    (f.byteAt 0 % 16 = 1 →
      (is_session_valid st now (f.byteAt 0 / 16 % 16) (src % 256)).1 = true →
      (alFind? (parse_tp_cm st now f src).multi_frame_messages
        (f.byteAt 0 / 16 % 16 * 256 + src % 256)).map MultiFrameMessage.total_size =
        some (f.byteAt 1 + f.byteAt 2 * 256)) := by
  constructor
  · intro h0 h1 h2
    cases hchk : (is_session_valid st now (f.byteAt 0 / 16 % 16) (src % 256)).1 with
    | false =>
      left
      rw [tp_cm_chk_false st now f src hchk]
      exact is_session_valid_false_state st now _ _ hchk
    | true =>
      right
      have hfe := is_session_valid_true_find st now (f.byteAt 0 / 16 % 16) (src % 256) hnod hchk
      simp only [Nat.mod_mod] at hfe
      simp only [parse_tp_cm, hchk, h0]
      rw [if_pos trivial, if_pos (Or.inl (by omega))]
      exact cleanup_find_none hfe
  · intro h1 hchk
    rw [tp_cm_rts_fresh st now f src hchk h1]
    exact congrArg (Option.map MultiFrameMessage.total_size) (alFind?_alInsert _ _ _)

/-- Witness for c4_theorem: the BAM conjunct on a zero-size BAM announce
and the RTS conjunct on a zero-size RTS announce, both against the fresh
controller state. -/
theorem c4_theorem_witness :
    (parse_tp_cm initState 0 ⟨0x98ECFF32, 8, [0x20, 0, 0, 0, 255, 2, 239, 0]⟩ 50 = initState ∨
      alFind? (parse_tp_cm initState 0
          ⟨0x98ECFF32, 8, [0x20, 0, 0, 0, 255, 2, 239, 0]⟩ 50).multi_frame_messages 562 = none) ∧
    (alFind? (parse_tp_cm initState 0
        ⟨0x98ECFF32, 8, [0x21, 0, 0, 0, 255, 2, 239, 0]⟩ 50).multi_frame_messages 562).map
      MultiFrameMessage.total_size = some 0 :=
  ⟨(c4_theorem initState 0 ⟨0x98ECFF32, 8, [0x20, 0, 0, 0, 255, 2, 239, 0]⟩ 50 (by decide)).1
      (by decide) (by decide) (by decide),
   (c4_theorem initState 0 ⟨0x98ECFF32, 8, [0x21, 0, 0, 0, 255, 2, 239, 0]⟩ 50 (by decide)).2
      (by decide) (by decide)⟩

/-! ## C8 -/

theorem bytes_length (f : can_frame) : f.bytes.length = 8 := by
  simp [can_frame.bytes]

theorem listResizeUp_length (l : List Nat) (n : Nat) :
    (listResizeUp l n).length = max l.length n := by
  unfold listResizeUp
  split <;> simp <;> omega

theorem listOverwrite_length (dst src : List Nat) (pos n : Nat)
    (h1 : pos + n ≤ dst.length) (h2 : n ≤ src.length) :
    (listOverwrite dst pos src n).length = dst.length := by
  simp only [listOverwrite, List.length_append, List.length_take, List.length_drop]
  omega

theorem dtBtc_le (m : MultiFrameMessage) (hin : m.packets_received * 7 < m.total_size) :
    m.packets_received * 7 + dtBtc m ≤ m.total_size ∧ dtBtc m ≤ 7 := by
  unfold dtBtc
  split <;> omega

theorem dtData_length (m : MultiFrameMessage) (f : can_frame)
    (hin : m.packets_received * 7 < m.total_size) :
    (dtData m f).length = max m.data.length (m.packets_received * 7 + dtBtc m) := by
  unfold dtData
  rw [listOverwrite_length]
  · exact listResizeUp_length _ _
  · rw [listResizeUp_length]
    omega
  · rw [List.length_drop, bytes_length]
    have := dtBtc_le m hin
    omega

theorem sessionsBounded_of_sub {st st2 : CState} (h : sessionsBounded st)
    (hsub : ∀ p, p ∈ st2.multi_frame_messages → p ∈ st.multi_frame_messages) :
    sessionsBounded st2 :=
  fun p hp => h p (hsub p hp)

theorem is_session_valid_bounded (st : CState) (now a b : Nat) (h : sessionsBounded st) :
    sessionsBounded (is_session_valid st now a b).2 :=
  sessionsBounded_of_sub h (fun _ hp => is_session_valid_snd_table_mem st now a b hp)

theorem cleanup_bounded (st : CState) (now : Nat) (h : sessionsBounded st) :
    sessionsBounded (cleanup_stale_sessions st now) :=
  sessionsBounded_of_sub h (fun _ hp => cleanup_mem hp)

theorem tp_cm_bounded (st : CState) (now : Nat) (f : can_frame) (src : Nat)
    (h : sessionsBounded st) : sessionsBounded (parse_tp_cm st now f src) := by
  have hch : sessionsBounded (cleanup_stale_sessions
      (is_session_valid st now (f.byteAt 0 / 16 % 16) (src % 256)).2 now) :=
    cleanup_bounded _ _ (is_session_valid_bounded _ _ _ _ h)
  cases hchk : (is_session_valid st now (f.byteAt 0 / 16 % 16) (src % 256)).1 with
  | false =>
    rw [tp_cm_chk_false st now f src hchk]
    exact is_session_valid_bounded _ _ _ _ h
  | true =>
    simp only [parse_tp_cm, hchk]
    rw [if_neg (by simp)]
    split
    · split
      · exact hch
      · intro p hp
        simp only [] at hp
        rcases mem_alInsert hp with rfl | hp2
        · refine ⟨by simp [openSession], ?_⟩
          simp only [openSession]
          have := byteAt_lt f 1
          have := byteAt_lt f 2
          omega
        · exact hch p hp2
    · split
      · intro p hp
        simp only [] at hp
        rcases mem_alInsert hp with rfl | hp2
        · refine ⟨by simp [openSession], ?_⟩
          simp only [openSession]
          have := byteAt_lt f 1
          have := byteAt_lt f 2
          omega
        · exact hch p hp2
      · split
        · intro p hp
          rw [releaseKey_table] at hp
          exact hch p (mem_alErase hp)
        · exact hch

theorem tp_dt_bounded (st : CState) (now : Nat) (f : can_frame) (src : Nat)
    (h : sessionsBounded st) : sessionsBounded (parse_tp_dt st now f src) := by
  by_cases hseq0 : f.byteAt 0 % 16 = 0
  · rw [tp_dt_seq0 st now f src hseq0]
    exact h
  · cases hfind : alFind? st.multi_frame_messages (f.byteAt 0 / 16 % 16 * 256 + src % 256) with
    | none =>
      have h1 : ¬(f.byteAt 0 % 16 = 0 ∨ f.byteAt 0 % 16 > 15) := by omega
      simp only [parse_tp_dt, hfind]
      rw [if_neg h1]
      exact h
    | some m =>
      have hm := h _ (alFind?_mem hfind)
      have hm1 : m.data.length ≤ m.total_size := hm.1
      have hm2 : m.total_size ≤ 65535 := hm.2
      by_cases hne : f.byteAt 0 % 16 ≠ m.packets_received % 15 + 1
      · rw [tp_dt_mismatch st now f src m hfind hseq0 hne]
        intro p hp
        rw [releaseKey_table] at hp
        exact h p (mem_alErase hp)
      · have heq : f.byteAt 0 % 16 = m.packets_received % 15 + 1 := by omega
        by_cases hover : m.packets_received * 7 ≥ m.total_size
        · rw [tp_dt_overflow st now f src m hfind hseq0 heq hover]
          intro p hp
          exact h p (mem_alErase hp)
        · have hin : m.packets_received * 7 < m.total_size := by omega
          by_cases hc : m.packets_received + 1 ≥ m.total_packets
          · rw [tp_dt_complete st now f src m hfind hseq0 heq hin hc]
            intro p hp
            rw [releaseKey_table] at hp
            exact h p (mem_alErase hp)
          · rw [tp_dt_accept st now f src m hfind hseq0 heq hin (by omega)]
            intro p hp
            simp only [] at hp
            rcases mem_alInsert hp with rfl | hp2
            · constructor
              · show (dtNext m f now).data.length ≤ (dtNext m f now).total_size
                have hl := dtData_length m f hin
                have hb := dtBtc_le m hin
                simp only [dtNext]
                rw [hl]
                omega
              · exact hm2
            · exact h p hp2

theorem is_bus_available_bounded (st : CState) (now : Nat) (h : sessionsBounded st) :
    sessionsBounded (is_bus_available st now).2 := by
  unfold is_bus_available
  split
  · split
    · exact h
    · exact h
  · exact h

/-- C8 counterexample: a BAM announce with announced total size 1786 is
accepted and creates a session whose total_size exceeds the claimed 1785
bound. -/
theorem c8_counterexample :
    (alFind? (decode_j1939_message initState 0
        ⟨0x98ECFF32, 8, [0x20, 250, 6, 255, 255, 2, 239, 0]⟩).multi_frame_messages
      562).map MultiFrameMessage.total_size = some 1786 ∧ 1785 < 1786 := by
  exact ⟨by decide, by decide⟩

/-- C8 amended: every receive-path operation preserves the per-session
bound data.len at most total_size, and total_size is bounded by 65535
(the uint16 announced size), not by 1785: the code enforces no 1785
limit. -/
theorem c8_theorem (st : CState) (now : Nat) (f : can_frame)
    (h : sessionsBounded st) :
    sessionsBounded (decode_j1939_message st now f) ∧
    sessionsBounded (cleanup_stale_sessions st now) ∧
    sessionsBounded (is_bus_available st now).2 := by
  refine ⟨?_, cleanup_bounded st now h, is_bus_available_bounded st now h⟩
  simp only [decode_j1939_message]
  split
  · exact h
  · split
    · exact tp_cm_bounded _ _ _ _ h
    · split
      · exact tp_dt_bounded _ _ _ _ h
      · split
        · exact h
        · exact h

/-- Witness for c8_theorem at the fresh state and the 1786-byte announce
frame. -/
theorem c8_theorem_witness :
    sessionsBounded (decode_j1939_message initState 0
      ⟨0x98ECFF32, 8, [0x20, 250, 6, 255, 255, 2, 239, 0]⟩) ∧
    sessionsBounded (cleanup_stale_sessions initState 0) ∧
    sessionsBounded (is_bus_available initState 0).2 :=
  c8_theorem initState 0 ⟨0x98ECFF32, 8, [0x20, 250, 6, 255, 255, 2, 239, 0]⟩
    (fun p hp => by simp [initState] at hp)

/-! ## C2: dispatch and announce lemmas -/

theorem runFrames_cons (st : CState) (now : Nat) (f : can_frame) (fs : List can_frame) :
    runFrames st now (f :: fs) = runFrames (decode_j1939_message st now f) now fs := rfl

theorem working_tag_facts : ∀ t ∈ working_sessions,
    is_valid_session t = true ∧ t < 16 ∧ (32 ||| t % 16 * 16) % 256 = t * 16 := by decide

theorem working_getD_mem (idx : Nat) :
    working_sessions.getD (idx % 6) 2 ∈ working_sessions := by
  have h6 : idx % 6 < 6 := Nat.mod_lt _ (by norm_num)
  have hall : ∀ j < 6, working_sessions.getD j 2 ∈ working_sessions := by decide
  exact hall _ h6

theorem decode_cm_dispatch (st : CState) (now : Nat) (f : can_frame) (sa : Nat)
    (hsa : sa < 256) (hid : f.can_id = 2147483648 + 418119680 + 65280 + sa) :
    decode_j1939_message st now f = parse_tp_cm st now f sa := by
  have h1 : ¬(f.can_id % 4294967296 / 2147483648 = 0) := by rw [hid]; omega
  have h2 : f.can_id % 536870912 = 418184960 + sa := by rw [hid]; omega
  have h3 : decoded_pgn (418184960 + sa) = 60416 := by
    rw [decoded_pgn_eq, if_pos (by omega : (418184960 + sa) / 65536 % 256 < 240)]
    omega
  have h4 : (418184960 + sa) % 256 = sa := by omega
  simp only [decode_j1939_message, h2, h3, h4, PGN_TP_CM]
  rw [if_neg h1]
  simp

theorem decode_dt_dispatch (st : CState) (now : Nat) (f : can_frame) (sa : Nat)
    (hsa : sa < 256) (hid : f.can_id = 2147483648 + 418054144 + 65280 + sa) :
    decode_j1939_message st now f = parse_tp_dt st now f sa := by
  have h1 : ¬(f.can_id % 4294967296 / 2147483648 = 0) := by rw [hid]; omega
  have h2 : f.can_id % 536870912 = 418119424 + sa := by rw [hid]; omega
  have h3 : decoded_pgn (418119424 + sa) = 60160 := by
    rw [decoded_pgn_eq, if_pos (by omega : (418119424 + sa) / 65536 % 256 < 240)]
    omega
  have h4 : (418119424 + sa) % 256 = sa := by omega
  simp only [decode_j1939_message, h2, h3, h4, PGN_TP_CM, PGN_TP_DT]
  rw [if_neg h1]
  simp

theorem announce_step (pgn size tag sa now : Nat)
    (htag : tag ∈ working_sessions) (hsa : sa < 256)
    (h1 : 1 ≤ size) (h2 : size ≤ 1785) :
    decode_j1939_message initState now (mkBamFrame pgn size tag sa) =
      midState (tag * 256 + sa)
        (openSession size (pgn % 16777216) sa tag ((size + 6) / 7) now)
        ((now + (size + 6) / 7 * 200 + 500) % 4294967296) := by
  obtain ⟨hv, ht16, hctl⟩ := working_tag_facts tag htag
  have hsamod : sa % 256 = sa := Nat.mod_eq_of_lt hsa
  rw [decode_cm_dispatch initState now _ sa hsa (by simp [mkBamFrame, hsamod])]
  have hb0 : (mkBamFrame pgn size tag sa).byteAt 0 = tag * 16 := by
    simpa [can_frame.byteAt, mkBamFrame] using hctl
  have hb1 : (mkBamFrame pgn size tag sa).byteAt 1 = size % 256 := by
    simp [can_frame.byteAt, mkBamFrame]
  have hb2 : (mkBamFrame pgn size tag sa).byteAt 2 = size / 256 % 256 := by
    simp [can_frame.byteAt, mkBamFrame]
  have hb3 : (mkBamFrame pgn size tag sa).byteAt 3 = (size + 6) / 7 := by
    simp only [can_frame.byteAt, mkBamFrame]
    rw [show List.getD [32 ||| tag % 16 * 16, size % 256, size / 256 % 256,
        if (size + 6) / 7 > 255 then 255 else (size + 6) / 7 % 256, 255,
        pgn % 256, pgn / 256 % 256, pgn / 65536 % 256] 3 0 =
      (if (size + 6) / 7 > 255 then 255 else (size + 6) / 7 % 256) from rfl]
    rw [if_neg (by omega)]
    omega
  have hb5 : (mkBamFrame pgn size tag sa).byteAt 5 = pgn % 256 := by
    simp [can_frame.byteAt, mkBamFrame]
  have hb6 : (mkBamFrame pgn size tag sa).byteAt 6 = pgn / 256 % 256 := by
    simp [can_frame.byteAt, mkBamFrame]
  have hb7 : (mkBamFrame pgn size tag sa).byteAt 7 = pgn / 65536 % 256 := by
    simp [can_frame.byteAt, mkBamFrame]
  have hsess : tag * 16 / 16 % 16 = tag := by omega
  have hchk : is_session_valid initState now tag sa = (true, initState) := by
    simp [is_session_valid, hv, alFind?, initState]
  have hms : size % 256 + size / 256 % 256 * 256 = size := by omega
  have hemb : pgn % 256 + pgn / 256 % 256 * 256 + pgn / 65536 % 256 * 65536 =
      pgn % 16777216 := by omega
  have htp : (if (size + 6) / 7 = 255 ∨ (size + 6) / 7 = 0 then (size + 6) / 7
      else (size + 6) / 7) = (size + 6) / 7 := by split <;> rfl
  simp only [parse_tp_cm, hb0, hb1, hb2, hb3, hb5, hb6, hb7, hsess, hsamod, hms]
  simp only [hchk]
  rw [if_neg (by simp)]
  rw [if_pos (by omega : tag * 16 % 16 = 0)]
  rw [show cleanup_stale_sessions initState now = initState from rfl]
  rw [if_neg (by omega : ¬(size = 0 ∨ (size + 6) / 7 = 0))]
  simp only [hemb, htp]
  simp [midState, initState, alInsert, setInsert, openSession]

/-! ## C2: data-frame lemmas -/

theorem frame_bytes_eq (f : can_frame) (h8 : f.data.length = 8)
    (hlt : ∀ b ∈ f.data, b < 256) : f.bytes = f.data := by
  apply List.ext_getElem
  · simp [can_frame.bytes, h8]
  · intro i h1 h2
    simp only [can_frame.bytes, List.getElem_map, List.getElem_range, can_frame.byteAt]
    rw [List.getD_eq_getElem?_getD, List.getElem?_eq_getElem h2, Option.getD_some]
    exact Nat.mod_eq_of_lt (hlt _ (List.getElem_mem h2))

theorem mkDtFrame_data (tag sa size k : Nat) (P : List Nat) :
    (mkDtFrame tag sa size P (k + 1)).data =
      (k % 15 + 1 + tag % 16 * 16) ::
        ((P.drop (k * 7)).take (if size - k * 7 < 7 then size - k * 7 else 7) ++
         List.replicate (7 - (if size - k * 7 < 7 then size - k * 7 else 7)) 255) := by
  simp only [mkDtFrame, Nat.add_sub_cancel]
  have hseq : (if (if k + 1 > 15 then k % 15 + 1 else k + 1) < 1 ∨
      (if k + 1 > 15 then k % 15 + 1 else k + 1) > 15 then 1
      else if k + 1 > 15 then k % 15 + 1 else k + 1) = k % 15 + 1 := by
    by_cases h15 : k + 1 > 15
    · simp only [if_pos h15]
      rw [if_neg (by omega)]
    · simp only [if_neg h15]
      rw [if_neg (by omega)]
      omega
  have hbts : (if k * 7 + 7 > size then size - k * 7 else 7) =
      (if size - k * 7 < 7 then size - k * 7 else 7) := by
    by_cases h : k * 7 + 7 > size
    · rw [if_pos h, if_pos (by omega)]
    · rw [if_neg h, if_neg (by omega)]
  rw [hseq, hbts]

theorem mkDtFrame_byte0 (tag sa size k : Nat) (P : List Nat) (ht16 : tag < 16) :
    (mkDtFrame tag sa size P (k + 1)).byteAt 0 = k % 15 + 1 + tag * 16 := by
  unfold can_frame.byteAt
  rw [mkDtFrame_data tag sa size k P, List.getD_cons_zero]
  have ht : tag % 16 = tag := by omega
  rw [ht]
  omega

theorem mkDtFrame_bytes_drop (tag sa size k : Nat) (P : List Nat)
    (hin : k * 7 < size) (ht16 : tag < 16)
    (hP : ∀ b ∈ P, b < 256) (hlen : P.length = size) :
    (mkDtFrame tag sa size P (k + 1)).bytes.drop 1 =
      (P.drop (k * 7)).take (if size - k * 7 < 7 then size - k * 7 else 7) ++
        List.replicate (7 - (if size - k * 7 < 7 then size - k * 7 else 7)) 255 := by
  have hbtc7 : (if size - k * 7 < 7 then size - k * 7 else 7) ≤ 7 := by split <;> omega
  have hbtc1 : 1 ≤ (if size - k * 7 < 7 then size - k * 7 else 7) := by split <;> omega
  rw [frame_bytes_eq]
  · rw [mkDtFrame_data tag sa size k P]
    rfl
  · rw [mkDtFrame_data tag sa size k P]
    simp only [List.length_cons, List.length_append, List.length_take, List.length_drop,
      List.length_replicate, hlen]
    split <;> omega
  · rw [mkDtFrame_data tag sa size k P]
    intro b hb
    rcases List.mem_cons.1 hb with rfl | hb2
    · omega
    · rcases List.mem_append.1 hb2 with h3 | h3
      · exact hP _ (List.drop_subset _ _ (List.mem_of_mem_take h3))
      · rw [List.eq_of_mem_replicate h3]
        omega

theorem releaseKey_midState (M : List (Nat × MultiFrameMessage)) (dl k : Nat)
    (O : List OutRecord) :
    releaseKey ⟨M, ⟨true, dl, [k]⟩, O⟩ k = ⟨M, ⟨false, dl, []⟩, O⟩ := by
  simp [releaseKey, setErase]

theorem dt_step_mid (emb sa tag tp now size k dl : Nat) (P : List Nat)
    (htag : tag ∈ working_sessions) (hsa : sa < 256)
    (hP : ∀ b ∈ P, b < 256) (hlen : P.length = size)
    (hsz7 : k * 7 + 7 ≤ size) (hktp : k + 1 < tp) :
    decode_j1939_message (midState (tag * 256 + sa) (mkSess emb sa tag tp now size P k) dl)
        now (mkDtFrame tag sa size P (k + 1)) =
      midState (tag * 256 + sa) (mkSess emb sa tag tp now size P (k + 1)) dl := by
  obtain ⟨hv, ht16, hctl⟩ := working_tag_facts tag htag
  have hsamod : sa % 256 = sa := Nat.mod_eq_of_lt hsa
  have hin : k * 7 < size := by omega
  have hb0 := mkDtFrame_byte0 tag sa size k P ht16
  have hb0m : (mkDtFrame tag sa size P (k + 1)).byteAt 0 % 16 = k % 15 + 1 := by
    rw [hb0]; omega
  have hb0d : (mkDtFrame tag sa size P (k + 1)).byteAt 0 / 16 % 16 = tag := by
    rw [hb0]; omega
  rw [decode_dt_dispatch _ _ _ sa hsa (by simp [mkDtFrame, hsamod])]
  have hfind : alFind? (midState (tag * 256 + sa)
        (mkSess emb sa tag tp now size P k) dl).multi_frame_messages
      ((mkDtFrame tag sa size P (k + 1)).byteAt 0 / 16 % 16 * 256 + sa % 256) =
      some (mkSess emb sa tag tp now size P k) := by
    rw [hb0d, hsamod]
    simp [midState, alFind?]
  rw [tp_dt_accept _ _ _ _ _ hfind (by rw [hb0m]; omega) (by rw [hb0m]; rfl)
    (show (mkSess emb sa tag tp now size P k).packets_received * 7 <
      (mkSess emb sa tag tp now size P k).total_size from hin)
    (show (mkSess emb sa tag tp now size P k).packets_received + 1 <
      (mkSess emb sa tag tp now size P k).total_packets from hktp)]
  have hnext : dtNext (mkSess emb sa tag tp now size P k)
      (mkDtFrame tag sa size P (k + 1)) now = mkSess emb sa tag tp now size P (k + 1) := by
    have hbtc : dtBtc (mkSess emb sa tag tp now size P k) = 7 := by
      simp only [dtBtc, mkSess]
      rw [if_neg (by omega)]
    have hdrop := mkDtFrame_bytes_drop tag sa size k P hin ht16 hP hlen
    rw [if_neg (by omega : ¬size - k * 7 < 7)] at hdrop
    rw [show (7 : Nat) - 7 = 0 from rfl, List.replicate_zero, List.append_nil] at hdrop
    have hd : (mkSess emb sa tag tp now size P k).data = P.take (k * 7) := rfl
    have hpr : (mkSess emb sa tag tp now size P k).packets_received = k := rfl
    have hres : listResizeUp (P.take (k * 7)) (k * 7 + 7) =
        P.take (k * 7) ++ List.replicate 7 0 := by
      have hlt : (P.take (k * 7)).length < k * 7 + 7 := by
        rw [List.length_take]
        omega
      have hsub : k * 7 + 7 - (P.take (k * 7)).length = 7 := by
        rw [List.length_take, hlen]
        omega
      unfold listResizeUp
      rw [if_pos hlt, hsub]
    have h1 : List.take (k * 7) (List.take (k * 7) P ++ List.replicate 7 0) =
        List.take (k * 7) P :=
      List.take_left' (by rw [List.length_take, hlen]; omega)
    have h2 : List.take 7 (List.take 7 (List.drop (k * 7) P)) =
        List.take 7 (List.drop (k * 7) P) :=
      List.take_of_length_le (by rw [List.length_take]; omega)
    have h3 : List.drop (k * 7 + 7) (List.take (k * 7) P ++ List.replicate 7 0) = [] :=
      List.drop_eq_nil_of_le (by
        rw [List.length_append, List.length_take, List.length_replicate, hlen]
        omega)
    have hover : listOverwrite (P.take (k * 7) ++ List.replicate 7 0) (k * 7)
        ((P.drop (k * 7)).take 7) 7 = P.take (k * 7 + 7) := by
      unfold listOverwrite
      rw [h1, h2, h3, List.append_nil, ← List.take_add]
    simp only [dtNext, dtData, hd, hpr, hbtc, hdrop, hres, hover]
    rw [show k * 7 + 7 = (k + 1) * 7 from by ring]
    rfl
  rw [hnext]
  rw [hb0d, hsamod]
  simp [midState, alInsert]

theorem dt_step_last (emb sa tag tp now size k dl : Nat) (P : List Nat)
    (htag : tag ∈ working_sessions) (hsa : sa < 256)
    (hP : ∀ b ∈ P, b < 256) (hlen : P.length = size)
    (hin : k * 7 < size) (hle : size ≤ k * 7 + 7) (hktp : tp ≤ k + 1) :
    decode_j1939_message (midState (tag * 256 + sa) (mkSess emb sa tag tp now size P k) dl)
        now (mkDtFrame tag sa size P (k + 1)) =
      { multi_frame_messages := []
        bus := { bus_busy := false, bus_busy_timeout := dl, active_bam_sessions := [] }
        output := [{ pgn := emb, sender := sa, size := SizeField.num size,
                     dataHex := bytesHex P }] } := by
  obtain ⟨hv, ht16, hctl⟩ := working_tag_facts tag htag
  have hsamod : sa % 256 = sa := Nat.mod_eq_of_lt hsa
  have hb0 := mkDtFrame_byte0 tag sa size k P ht16
  have hb0m : (mkDtFrame tag sa size P (k + 1)).byteAt 0 % 16 = k % 15 + 1 := by
    rw [hb0]; omega
  have hb0d : (mkDtFrame tag sa size P (k + 1)).byteAt 0 / 16 % 16 = tag := by
    rw [hb0]; omega
  rw [decode_dt_dispatch _ _ _ sa hsa (by simp [mkDtFrame, hsamod])]
  have hfind : alFind? (midState (tag * 256 + sa)
        (mkSess emb sa tag tp now size P k) dl).multi_frame_messages
      ((mkDtFrame tag sa size P (k + 1)).byteAt 0 / 16 % 16 * 256 + sa % 256) =
      some (mkSess emb sa tag tp now size P k) := by
    rw [hb0d, hsamod]
    simp [midState, alFind?]
  rw [tp_dt_complete _ _ _ _ _ hfind (by rw [hb0m]; omega) (by rw [hb0m]; rfl)
    (show (mkSess emb sa tag tp now size P k).packets_received * 7 <
      (mkSess emb sa tag tp now size P k).total_size from hin)
    (show (mkSess emb sa tag tp now size P k).packets_received + 1 ≥
      (mkSess emb sa tag tp now size P k).total_packets from hktp)]
  have hdata : dtData (mkSess emb sa tag tp now size P k)
      (mkDtFrame tag sa size P (k + 1)) = P := by
    have hbtc : dtBtc (mkSess emb sa tag tp now size P k) = size - k * 7 := by
      simp only [dtBtc, mkSess]
      split <;> omega
    have hdrop := mkDtFrame_bytes_drop tag sa size k P hin ht16 hP hlen
    have hite : (if size - k * 7 < 7 then size - k * 7 else 7) = size - k * 7 := by
      split <;> omega
    rw [hite] at hdrop
    have hd : (mkSess emb sa tag tp now size P k).data = P.take (k * 7) := rfl
    have hpr : (mkSess emb sa tag tp now size P k).packets_received = k := rfl
    have hres : listResizeUp (P.take (k * 7)) (k * 7 + (size - k * 7)) =
        P.take (k * 7) ++ List.replicate (size - k * 7) 0 := by
      have hlt : (P.take (k * 7)).length < k * 7 + (size - k * 7) := by
        rw [List.length_take]
        omega
      have hsub : k * 7 + (size - k * 7) - (P.take (k * 7)).length = size - k * 7 := by
        rw [List.length_take, hlen]
        omega
      unfold listResizeUp
      rw [if_pos hlt, hsub]
    have hplen : ((P.drop (k * 7)).take (size - k * 7) ++
        List.replicate (7 - (size - k * 7)) 255).take (size - k * 7) =
        (P.drop (k * 7)).take (size - k * 7) :=
      List.take_left' (by rw [List.length_take, List.length_drop, hlen]; omega)
    have h1 : List.take (k * 7) (List.take (k * 7) P ++ List.replicate (size - k * 7) 0) =
        List.take (k * 7) P :=
      List.take_left' (by rw [List.length_take, hlen]; omega)
    have h3 : List.drop (k * 7 + (size - k * 7))
        (List.take (k * 7) P ++ List.replicate (size - k * 7) 0) = [] :=
      List.drop_eq_nil_of_le (by
        rw [List.length_append, List.length_take, List.length_replicate, hlen]
        omega)
    simp only [dtData, hd, hpr, hbtc, hdrop]
    unfold listOverwrite
    rw [hres, h1, hplen, h3, List.append_nil, ← List.take_add]
    rw [show k * 7 + (size - k * 7) = size from by omega, ← hlen, List.take_length]
  rw [hb0d, hsamod]
  have htable : alErase (midState (tag * 256 + sa)
      (mkSess emb sa tag tp now size P k) dl).multi_frame_messages (tag * 256 + sa) = [] := by
    simp [midState, alErase]
  rw [show (midState (tag * 256 + sa) (mkSess emb sa tag tp now size P k) dl).output = []
    from rfl]
  simp only [htable, hdata]
  rw [show (midState (tag * 256 + sa) (mkSess emb sa tag tp now size P k) dl).bus =
    ⟨true, dl, [tag * 256 + sa]⟩ from rfl]
  rw [releaseKey_midState]
  rfl

theorem run_dt_aux (emb sa tag now size dl : Nat) (P : List Nat)
    (htag : tag ∈ working_sessions) (hsa : sa < 256)
    (hP : ∀ b ∈ P, b < 256) (hlen : P.length = size) (h1 : 1 ≤ size) :
    ∀ (n j : Nat), j + n = (size + 6) / 7 → 1 ≤ n →
      runFrames (midState (tag * 256 + sa)
          (mkSess emb sa tag ((size + 6) / 7) now size P j) dl) now
        ((List.range' (j + 1) n).map (fun s => mkDtFrame tag sa size P s)) =
      { multi_frame_messages := []
        bus := { bus_busy := false, bus_busy_timeout := dl, active_bam_sessions := [] }
        output := [{ pgn := emb, sender := sa, size := SizeField.num size,
                     dataHex := bytesHex P }] } := by
  intro n
  induction n with
  | zero => intro j hj hn; omega
  | succ n ih =>
    intro j hj hn
    rw [List.range'_succ, List.map_cons, runFrames_cons]
    cases n with
    | zero =>
      rw [dt_step_last emb sa tag ((size + 6) / 7) now size j dl P htag hsa hP hlen
        (by omega) (by omega) (by omega)]
      rfl
    | succ n2 =>
      rw [dt_step_mid emb sa tag ((size + 6) / 7) now size j dl P htag hsa hP hlen
        (by omega) (by omega)]
      exact ih (j + 1) (by omega) (by omega)

theorem roundtrip_multi (pgn idx sa now : Nat) (P : List Nat)
    (h1 : 1 ≤ P.length) (h2 : P.length ≤ 1785)
    (hP : ∀ b ∈ P, b < 256) (hsa : sa < 256) :
    (runFrames initState now (send_multi_frame_message pgn P P.length idx sa).1).output =
      [{ pgn := pgn % 16777216, sender := sa, size := SizeField.num P.length,
         dataHex := bytesHex P }] := by
  have htag : working_sessions.getD (idx % 6) 2 ∈ working_sessions := working_getD_mem idx
  have hPmap : P.map (fun b => b % 256) = P := by
    rw [List.map_congr_left (fun b hb => Nat.mod_eq_of_lt (hP b hb))]
    exact List.map_id P
  have hsz : P.length % 65536 = P.length := Nat.mod_eq_of_lt (by omega)
  have hsamod : sa % 256 = sa := Nat.mod_eq_of_lt hsa
  simp only [send_multi_frame_message, hsz, hsamod, hPmap]
  rw [runFrames_cons,
    announce_step pgn P.length (working_sessions.getD (idx % 6) 2) sa now htag hsa h1 h2]
  have hrng : (List.range ((P.length + 6) / 7)).map
      (fun i => mkDtFrame (working_sessions.getD (idx % 6) 2) sa P.length P (i + 1)) =
      (List.range' 1 ((P.length + 6) / 7)).map
        (fun s => mkDtFrame (working_sessions.getD (idx % 6) 2) sa P.length P s) := by
    rw [List.range'_eq_map_range, List.map_map]
    exact List.map_congr_left (fun i _ => by
      simp only [Function.comp_apply]
      rw [Nat.add_comm])
  rw [hrng]
  have hsess : openSession P.length (pgn % 16777216) sa (working_sessions.getD (idx % 6) 2)
      ((P.length + 6) / 7) now =
      mkSess (pgn % 16777216) sa (working_sessions.getD (idx % 6) 2)
        ((P.length + 6) / 7) now P.length P 0 := by
    simp [openSession, mkSess]
  rw [hsess]
  rw [run_dt_aux (pgn % 16777216) sa (working_sessions.getD (idx % 6) 2) now P.length
    ((now + (P.length + 6) / 7 * 200 + 500) % 4294967296) P htag hsa hP rfl h1
    ((P.length + 6) / 7) 0 (by omega) (by omega)]

theorem bytes_take_data (f : can_frame) (hd : f.data.length ≤ 8)
    (hlt : ∀ b ∈ f.data, b < 256) : f.bytes.take f.data.length = f.data := by
  apply List.ext_getElem
  · simp [can_frame.bytes]
    omega
  · intro i h1 h2
    rw [List.getElem_take]
    simp only [can_frame.bytes, List.getElem_map, List.getElem_range, can_frame.byteAt]
    rw [List.getD_eq_getElem?_getD, List.getElem?_eq_getElem h2, Option.getD_some]
    exact Nat.mod_eq_of_lt (hlt _ (List.getElem_mem h2))

theorem roundtrip_single (pgn dst sa now : Nat) (P : List Nat)
    (hle : P.length ≤ 8) (hP : ∀ b ∈ P, b < 256) (hsa : sa < 256)
    (hpf : 240 ≤ pgn / 256 % 256) :
    ∀ fr, send_single_frame_message pgn dst P P.length sa = some fr →
      (decode_j1939_message initState now fr).output =
        [{ pgn := pgn % 65536, sender := sa, size := SizeField.sf,
           dataHex := bytesHex P }] := by
  intro fr hfr
  have hlen8 : P.length % 256 = P.length := by omega
  have hsamod : sa % 256 = sa := Nat.mod_eq_of_lt hsa
  have hPmap : P.map (fun b => b % 256) = P := by
    rw [List.map_congr_left (fun b hb => Nat.mod_eq_of_lt (hP b hb))]
    exact List.map_id P
  rw [send_single_frame_message, if_neg (by omega : ¬P.length % 256 > 8)] at hfr
  rw [hsamod, hlen8, hPmap, List.take_length] at hfr
  injection hfr with h
  subst h
  have hp1 : pgn / 256 % 256 < 256 := by omega
  have hp2 : pgn % 256 < 256 := by omega
  have hcid : (⟨2147483648 + 402653184 + pgn / 256 % 256 * 65536 + pgn % 256 * 256 + sa,
      P.length, P⟩ : can_frame).can_id =
      2147483648 + 402653184 + pgn / 256 % 256 * 65536 + pgn % 256 * 256 + sa := rfl
  have h1 : ¬((2147483648 + 402653184 + pgn / 256 % 256 * 65536 + pgn % 256 * 256 + sa) %
      4294967296 / 2147483648 = 0) := by omega
  have h2 : (2147483648 + 402653184 + pgn / 256 % 256 * 65536 + pgn % 256 * 256 + sa) %
      536870912 = 402653184 + pgn / 256 % 256 * 65536 + pgn % 256 * 256 + sa := by omega
  have h3 : decoded_pgn (402653184 + pgn / 256 % 256 * 65536 + pgn % 256 * 256 + sa) =
      pgn / 256 % 256 * 256 + pgn % 256 := by
    rw [decoded_pgn_eq, if_neg (by omega : ¬(402653184 + pgn / 256 % 256 * 65536 +
      pgn % 256 * 256 + sa) / 65536 % 256 < 240)]
    omega
  have h4 : (402653184 + pgn / 256 % 256 * 65536 + pgn % 256 * 256 + sa) % 256 = sa := by
    omega
  simp only [decode_j1939_message, hcid, h2, h3, h4, PGN_TP_CM, PGN_TP_DT, PGN_REQUEST]
  rw [if_neg h1]
  rw [if_neg (by omega : ¬pgn / 256 % 256 * 256 + pgn % 256 = 60416)]
  rw [if_neg (by omega : ¬pgn / 256 % 256 * 256 + pgn % 256 = 60160)]
  rw [if_neg (by omega : ¬pgn / 256 % 256 * 256 + pgn % 256 = 59904)]
  have hbt : (⟨2147483648 + 402653184 + pgn / 256 % 256 * 65536 + pgn % 256 * 256 + sa,
      P.length, P⟩ : can_frame).bytes.take P.length = P := by
    have := bytes_take_data (⟨2147483648 + 402653184 + pgn / 256 % 256 * 65536 +
      pgn % 256 * 256 + sa, P.length, P⟩ : can_frame) hle hP
    exact this
  show ({ initState with output := initState.output ++
    [{ pgn := pgn / 256 % 256 * 256 + pgn % 256, sender := sa, size := SizeField.sf,
       dataHex := bytesHex ((⟨2147483648 + 402653184 + pgn / 256 % 256 * 65536 +
         pgn % 256 * 256 + sa, P.length, P⟩ : can_frame).bytes.take P.length) }] } :
      CState).output = _
  rw [hbt, (by omega : pgn / 256 % 256 * 256 + pgn % 256 = pgn % 65536)]
  rfl

/-- C2 counterexample: for the 1-byte payload 0x41 on broadcast PGN
0xF012, the frame emitted by send_single_frame_message decodes to exactly
one sink record whose size field is the string SF, not the byte count 1
claimed for the single-frame alternative. -/
theorem c2_counterexample :
    (send_single_frame_message 0xF012 255 [0x41] 1 0x32).map
        (fun fr => (decode_j1939_message initState 0 fr).output.map OutRecord.size) =
      some [SizeField.sf] ∧
    SizeField.sf ≠ SizeField.num 1 := by
  exact ⟨by decide, by decide⟩

/-- C2 amended: for every payload P with 1 <= len <= 1785 and all bytes in
range, feeding the frames of send_multi_frame_message back into
decode_j1939_message makes the sink emit exactly one record with size
equal to the byte count and data the uppercase hex of P; feeding the
frame of send_single_frame_message (len <= 8, broadcast-range PGN) makes
the sink emit exactly one record with data the uppercase hex of P but
with the size field SF, not the byte count. -/
theorem c2_theorem (pgn dst idx sa now : Nat) (P : List Nat)
    (h1 : 1 ≤ P.length) (h2 : P.length ≤ 1785)
    (hP : ∀ b ∈ P, b < 256) (hsa : sa < 256)
    (hpf : 240 ≤ pgn / 256 % 256) :
    ((runFrames initState now (send_multi_frame_message pgn P P.length idx sa).1).output =
      [{ pgn := pgn % 16777216, sender := sa, size := SizeField.num P.length,
         dataHex := bytesHex P }]) ∧
    (P.length ≤ 8 → ∀ fr, send_single_frame_message pgn dst P P.length sa = some fr →
      (decode_j1939_message initState now fr).output =
        [{ pgn := pgn % 65536, sender := sa, size := SizeField.sf,
           dataHex := bytesHex P }]) :=
  ⟨roundtrip_multi pgn idx sa now P h1 h2 hP hsa,
   fun h8 => roundtrip_single pgn dst sa now P h8 hP hsa hpf⟩

/-- Witness for c2_theorem: both conjuncts at the payload 0x41, PGN
0xF012, source 0x32. -/
theorem c2_theorem_witness :
    ((runFrames initState 0 (send_multi_frame_message 0xF012 [0x41] 1 0 0x32).1).output =
      [{ pgn := 0xF012, sender := 0x32, size := SizeField.num 1,
         dataHex := bytesHex [0x41] }]) ∧
    (∀ fr, send_single_frame_message 0xF012 255 [0x41] 1 0x32 = some fr →
      (decode_j1939_message initState 0 fr).output =
        [{ pgn := 0xF012, sender := 0x32, size := SizeField.sf,
           dataHex := bytesHex [0x41] }]) :=
  ⟨(c2_theorem 0xF012 255 0 0x32 0 [0x41] (by decide) (by decide) (by decide) (by decide)
      (by decide)).1,
   (c2_theorem 0xF012 255 0 0x32 0 [0x41] (by decide) (by decide) (by decide) (by decide)
      (by decide)).2 (by decide)⟩
